import Mathlib

/-!
# Compile-time metafunctions of `03_metafunction.cpp` and `10_tuple.cpp`

A shallow embedding of the numeric metafunctions (`recursive_factorial`,
`iterative_factorial`, `factorial_t`, `factorials`, `binary`), of the type
metafunctions (`add_pointer`, `add_pointer_fwd`, `add_const_pointer`,
`replace_type`) and of the tuple functions (`my_foreach`, the function objects
`my_func` and `my_func_for_apply`, `reverse_tuple`), together with the
properties they satisfy.

`std::size_t` is the 64-bit unsigned type: its values are the naturals below
`2 ^ 64` and its arithmetic wraps modulo `2 ^ 64`.  `int` is the 32-bit signed
type, whose overflow is undefined.
-/

namespace Metafunction

/-! ## Values of constant expressions -/

/-- The modulus of `std::size_t` arithmetic. -/
def SIZE_MOD : Nat := 2 ^ 64

/-- A value of a constant expression together with its C++ type.  The members
declared `constexpr static auto value = 1;` are of type `int`, the products and
sums that involve the `std::size_t` template parameter are of type
`std::size_t`. -/
inductive CVal where
  | int_ (v : Int)
  | size_t_ (v : Nat)
  deriving DecidableEq, Repr

namespace CVal

/-- The number a value denotes. -/
def val : CVal → Int
  | int_ v => v
  | size_t_ v => (v : Int)

/-- Conversion to `std::size_t` (an `int` is reduced modulo `2 ^ 64`). -/
def to_size_t : CVal → Nat
  | int_ v => (v % (SIZE_MOD : Int)).toNat
  | size_t_ v => v % SIZE_MOD

/-- The product `a * b` after the usual arithmetic conversions: `int * int` is
an `int` (the only such product in the source is `0 * 2`), every other
combination is converted to `std::size_t` and wraps. -/
def mul : CVal → CVal → CVal
  | int_ a, int_ b => int_ (a * b)
  | a, b => size_t_ ((a.to_size_t * b.to_size_t) % SIZE_MOD)

/-- The sum `a + b` after the usual arithmetic conversions. -/
def add : CVal → CVal → CVal
  | int_ a, int_ b => int_ (a + b)
  | a, b => size_t_ ((a.to_size_t + b.to_size_t) % SIZE_MOD)

end CVal

/-! ## Factorials -/

/-- `recursive_factorial` (lines 14-18):
`(0 == i || 1 == i) ? 1 : (i * recursive_factorial(i - 1))`. -/
def recursive_factorial : Nat → Nat
  | 0 => 1
  | i + 1 => if i + 1 = 1 then 1 else ((i + 1) * recursive_factorial i) % SIZE_MOD

/-- The loop of `iterative_factorial` (lines 24-26), `for ( ; i; --i) val *= i;`,
as a function of the loop state `(i, val)`. -/
def iterative_factorial_loop : Nat → Nat → Nat
  | 0, val => val
  | i + 1, val => iterative_factorial_loop i ((val * (i + 1)) % SIZE_MOD)

/-- `iterative_factorial` (lines 21-28): `val = 1`, the loop, `return val`. -/
def iterative_factorial (i : Nat) : Nat :=
  iterative_factorial_loop i 1

/-- `factorial_t<i>::value` (lines 35-58): the full specializations for `0` and
`1` give the `int` 1, the primary template gives
`factorial_t<i - 1>::value * i`. -/
def factorial_t : Nat → CVal
  | 0 => CVal.int_ 1
  | 1 => CVal.int_ 1
  | i + 2 => CVal.mul (factorial_t (i + 1)) (CVal.size_t_ (i + 2))

/-- The variable template `factorials<i...>` (lines 94-97), an array
`std::size_t [sizeof...(i)]` initialised with `iterative_factorial(i)...`.
An array bound must be greater than zero, so the empty pack gives no array. -/
def factorials (i : List Nat) : Option (List Nat) :=
  if i.length = 0 then none else some (i.map iterative_factorial)

/-! ## The `binary` metafunction -/

/-- `binary<i>` (lines 116-129).  The full specialization `binary<0>` has the
`int` value 0.  The primary template first checks
`static_assert(i % 10 == 0 || i % 10 == 1, ...)` and has the value
`(binary<i / 10>::value * 2) + (i % 10)`; instantiating it instantiates
`binary<i / 10>`.  The result is `none` when a `static_assert` of the chain of
instantiations fails (the program is rejected), `some v` otherwise.  The
template parameter `i` is a `std::size_t`: the function stands for the template
on the arguments `i < 2 ^ 64` only, and `binary_literal` below is the use of
the template with a literal, which checks that range. -/
def binary (i : Nat) : Option CVal :=
  if h : i = 0 then
    some (CVal.int_ 0)
  else if i % 10 = 0 ∨ i % 10 = 1 then
    (binary (i / 10)).map
      (fun v => CVal.add (CVal.mul v (CVal.int_ 2)) (CVal.size_t_ (i % 10)))
  else
    none
termination_by i
decreasing_by omega

/-! ## Types -/

/-- The fundamental types the tests use, and class types (one for each `id`). -/
inductive Base where
  | void | char | int | long | float | double
  | cls (id : Nat)
  deriving DecidableEq, Repr

/-- The C++ types the patterns of `replace_type` tell apart: fundamental and
class types, pointers, lvalue references, sized arrays and function types
`r (args...)` (without ellipsis, qualifiers or `noexcept`).  The flag `c` of
`base` and `ptr` is a top-level `const`; references and function types have no
top-level `const`, and the `const` of an array is that of its elements, so a
type has one term and two types are the same type when the terms are equal.
The parameter types of a function type are the adjusted ones (`adjust_param`
below leaves them unchanged). -/
inductive CType where
  /-- The type `b`, or `b const`. -/
  | base (c : Bool) (b : Base)
  /-- The type `t *`, or `t * const`. -/
  | ptr (c : Bool) (t : CType)
  /-- The type `t &`. -/
  | lref (t : CType)
  /-- The type `t [n]`. -/
  | arr (t : CType) (n : Nat)
  /-- The function type `r (args...)`; `ptr false (fn r args)` is `r (*) (args...)`. -/
  | fn (r : CType) (args : List CType)
  deriving Repr

mutual
/-- Equality of types is decidable. -/
def CType.decEq : (a b : CType) → Decidable (a = b)
  | .base c n, .base c' n' =>
      if h : c = c' ∧ n = n' then isTrue (by rw [h.1, h.2])
      else isFalse (by intro e; cases e; exact h ⟨rfl, rfl⟩)
  | .ptr c t, .ptr c' t' =>
      match CType.decEq t t' with
      | isTrue ht =>
          if h : c = c' then isTrue (by rw [h, ht])
          else isFalse (by intro e; cases e; exact h rfl)
      | isFalse ht => isFalse (by intro e; cases e; exact ht rfl)
  | .lref t, .lref t' =>
      match CType.decEq t t' with
      | isTrue ht => isTrue (by rw [ht])
      | isFalse ht => isFalse (by intro e; cases e; exact ht rfl)
  | .arr t n, .arr t' n' =>
      match CType.decEq t t' with
      | isTrue ht =>
          if h : n = n' then isTrue (by rw [h, ht])
          else isFalse (by intro e; cases e; exact h rfl)
      | isFalse ht => isFalse (by intro e; cases e; exact ht rfl)
  | .fn r a, .fn r' a' =>
      match CType.decEq r r', CType.decEqList a a' with
      | isTrue hr, isTrue ha => isTrue (by rw [hr, ha])
      | isFalse hr, _ => isFalse (by intro e; cases e; exact hr rfl)
      | _, isFalse ha => isFalse (by intro e; cases e; exact ha rfl)
  | .base .., .ptr .. | .base .., .lref .. | .base .., .arr .. | .base .., .fn ..
  | .ptr .., .base .. | .ptr .., .lref .. | .ptr .., .arr .. | .ptr .., .fn ..
  | .lref .., .base .. | .lref .., .ptr .. | .lref .., .arr .. | .lref .., .fn ..
  | .arr .., .base .. | .arr .., .ptr .. | .arr .., .lref .. | .arr .., .fn ..
  | .fn .., .base .. | .fn .., .ptr .. | .fn .., .lref .. | .fn .., .arr .. =>
      isFalse (by intro e; cases e)
/-- Equality of lists of types is decidable. -/
def CType.decEqList : (a b : List CType) → Decidable (a = b)
  | [], [] => isTrue rfl
  | x :: xs, y :: ys =>
      match CType.decEq x y, CType.decEqList xs ys with
      | isTrue hx, isTrue hs => isTrue (by rw [hx, hs])
      | isFalse hx, _ => isFalse (by intro e; cases e; exact hx rfl)
      | _, isFalse hs => isFalse (by intro e; cases e; exact hs rfl)
  | [], _ :: _ | _ :: _, [] => isFalse (by intro e; cases e)
end

instance : DecidableEq CType := CType.decEq

/-- Why an instantiation is rejected. -/
inductive Reject where
  /-- Several partial specializations match and none is more specialized than
  all the others. -/
  | ambiguous
  /-- A type that cannot be formed was written. -/
  | ill_formed
  deriving DecidableEq, Repr

instance {α : Type} [DecidableEq α] : DecidableEq (Except Reject α)
  | .ok a, .ok b => if h : a = b then isTrue (by rw [h]) else isFalse (by intro e; cases e; exact h rfl)
  | .error a, .error b => if h : a = b then isTrue (by rw [h]) else isFalse (by intro e; cases e; exact h rfl)
  | .ok _, .error _ => isFalse (by intro e; cases e)
  | .error _, .ok _ => isFalse (by intro e; cases e)

/-- Modelled from the spec: `type_is` of the header `02_type.h`, the generic
wrapper metafunction whose nested alias `type` is the type it wraps. -/
def type_is (t : CType) : CType := t

/-! ### Forming types -/

/-- The type `t *`: there is no pointer to a reference. -/
def mk_ptr : CType → Except Reject CType
  | .lref _ => .error .ill_formed
  | t => .ok (.ptr false t)

/-- The adjustment of a parameter type when a function type is formed: an
array of `t` becomes a pointer to `t`, a function type a pointer to it, and a
top-level `const` is deleted. -/
def adjust_param : CType → CType
  | .arr t _ => .ptr false t
  | .fn r args => .ptr false (.fn r args)
  | .base _ b => .base false b
  | .ptr _ t => .ptr false t
  | .lref t => .lref t

/-- A function does not return an array or a function. -/
def returnable : CType → Bool
  | .arr _ _ => false
  | .fn _ _ => false
  | _ => true

/-- Whether a type is `void` or `void const`. -/
def is_void : CType → Bool
  | .base _ .void => true
  | _ => false

/-- The type `ret (*) (params...)` where `ret` and `params` come from template
arguments: the return type is neither an array nor a function, no parameter is
`void`, and the parameter types are adjusted. -/
def mk_fn_ptr (ret : CType) (params : List CType) : Except Reject CType :=
  if returnable ret && !(params.any is_void) then
    .ok (.ptr false (.fn ret (params.map adjust_param)))
  else
    .error .ill_formed

/-! ### Matching of partial specializations -/

/-- A template argument of a partial specialization of `replace_type`, a
pattern over the template parameters of the partial specialization. -/
inductive TPat where
  /-- A type template parameter. -/
  | var (v : Nat)
  /-- The pattern `p *`. -/
  | ptr (p : TPat)
  /-- The pattern `p [N]`, `N` a non-type template parameter of its own. -/
  | arr (p : TPat)
  /-- The pattern `r (Arg...)`, `Arg` a type parameter pack of its own. -/
  | fn_pack (r : TPat)
  deriving DecidableEq, Repr

/-- The types deduced so far for the type template parameters. -/
abbrev Deduced := List (Nat × CType)

/-- Deduce the parameter `v` as `t`: a parameter deduced twice has to be deduced
as the same type. -/
def deduce_var (v : Nat) (t : CType) (d : Deduced) : Option Deduced :=
  match d.lookup v with
  | none => some ((v, t) :: d)
  | some t' => if t' = t then some d else none

/-- Deduction of the template parameters of a pattern from a type.  The type
has to have the form of the pattern exactly: `p *` is matched by a pointer
without top-level `const` only, `p [N]` by an array, `r (Arg...)` by a function
type, whose parameter types the pack takes. -/
def deduce : TPat → CType → Deduced → Option Deduced
  | .var v, t, d => deduce_var v t d
  | .ptr p, .ptr false t, d => deduce p t d
  | .arr p, .arr t _, d => deduce p t d
  | .fn_pack r, .fn ret _, d => deduce r ret d
  | _, _, _ => none

/-- The template argument list of a partial specialization. -/
structure Spec where
  a1 : TPat
  a2 : TPat
  a3 : TPat
  deriving DecidableEq, Repr

/-- Lines 250-252: `replace_type<S, S, T>`. -/
def spec_exact : Spec := ⟨.var 0, .var 0, .var 1⟩

/-- Lines 254-256: `replace_type<S *, S, T>`. -/
def spec_pointer : Spec := ⟨.ptr (.var 0), .var 0, .var 1⟩

/-- Lines 258-260: `replace_type<S * [N], S, T>`. -/
def spec_array : Spec := ⟨.arr (.ptr (.var 0)), .var 0, .var 1⟩

/-- Lines 262-267: `replace_type<R (*) (Arg...), S, T>`. -/
def spec_fnptr : Spec := ⟨.ptr (.fn_pack (.var 0)), .var 1, .var 2⟩

/-- A partial specialization matches a template argument list when its
parameters can be deduced from it. -/
def Spec.matches_args (s : Spec) (t src tgt : CType) : Bool :=
  (((deduce s.a1 t []).bind (deduce s.a2 src)).bind (deduce s.a3 tgt)).isSome

/-- The type a pattern stands for in partial ordering: a unique type for every
template parameter (here the class types `1000 + v`), a unique value for `N`
and a unique type for the pack. -/
def TPat.unique : TPat → CType
  | .var v => .base false (.cls (1000 + v))
  | .ptr p => .ptr false p.unique
  | .arr p => .arr p.unique 1
  | .fn_pack r => .fn r.unique [.base false (.cls 999)]

/-- `p` is at least as specialized as `q`: the parameters of `q` can be deduced
from the arguments of `p` with unique types in place of its parameters. -/
def Spec.at_least_as_specialized (p q : Spec) : Bool :=
  q.matches_args p.a1.unique p.a2.unique p.a3.unique

/-- `p` is more specialized than `q`. -/
def Spec.more_specialized (p q : Spec) : Bool :=
  p.at_least_as_specialized q && !(q.at_least_as_specialized p)

/-- The templates of `replace_type`: the primary template and its four partial
specializations. -/
inductive Choice where
  | primary | exact | pointer | array | fnptr
  deriving DecidableEq, Repr

/-- The partial specializations, in the order of the source. -/
def specializations : List (Choice × Spec) :=
  [(.exact, spec_exact), (.pointer, spec_pointer), (.array, spec_array),
   (.fnptr, spec_fnptr)]

/-- The partial specializations matching `replace_type<t, src, tgt>`. -/
def matching (t src tgt : CType) : List (Choice × Spec) :=
  specializations.filter (fun c => c.2.matches_args t src tgt)

/-- Among the matching partial specializations `m`: the primary template when
there is none, else the one that is more specialized than every other one, and
an ambiguity (the program is ill-formed) when there is no such one. -/
def most_specialized (m : List (Choice × Spec)) : Except Reject Choice :=
  match m with
  | [] => .ok .primary
  | _ =>
    match m.filter (fun c => m.all (fun d => d.1 = c.1 || c.2.more_specialized d.2)) with
    | [c] => .ok c.1
    | _ => .error .ambiguous

/-- Selection of the template to instantiate for `replace_type<t, src, tgt>`. -/
def select (t src tgt : CType) : Except Reject Choice :=
  most_specialized (matching t src tgt)

/-- The member `type` of the selected template, for the template arguments
`<t, src, tgt>`; `fnptr_type` is the member `type` that the partial
specialization for function pointers computes. -/
def member_type (c : Choice) (t tgt : CType) (fnptr_type : Except Reject CType) :
    Except Reject CType :=
  match c with
  -- `replace_type : type_is<T>`
  | .primary => .ok (type_is t)
  -- `replace_type<S, S, T> : type_is<T>`
  | .exact => .ok (type_is tgt)
  -- `replace_type<S *, S, T> : type_is<T *>`
  | .pointer => (mk_ptr tgt).map type_is
  -- `replace_type<S * [N], S, T> : type_is<T * [N]>`
  | .array =>
    match t with
    | .arr _ n => (mk_ptr tgt).map (fun p => type_is (.arr p n))
    | _ => .error .ill_formed
  -- `replace_type<R (*) (Arg...), S, T>`
  | .fnptr => fnptr_type

mutual
/-- `replace_type<T, SourceType, TargetType>::type` (lines 241-267), or why the
instantiation is rejected.  For the partial specialization for function
pointers, `R` and `Arg...` are deduced from `T = R (*) (Arg...)`,
`ret_t = replace_type_t<R, S, T>` and
`type = ret_t (*) (replace_type_t<Arg, S, T>...)`. -/
def replace_type : CType → CType → CType → Except Reject CType
  | t, src, tgt =>
    (select t src tgt).bind (fun c =>
      member_type c t tgt
        (match t with
         | .ptr _ (.fn r args) =>
           (replace_type r src tgt).bind (fun ret_t =>
             (replace_type_pack args src tgt).bind (fun params =>
               mk_fn_ptr ret_t params))
         | _ => .error .ill_formed))
/-- The pack expansion `replace_type_t<Arg, S, T>...`. -/
def replace_type_pack : List CType → CType → CType → Except Reject (List CType)
  | [], _, _ => .ok []
  | a :: rest, src, tgt =>
    (replace_type a src tgt).bind (fun a' =>
      (replace_type_pack rest src tgt).bind (fun rest' => .ok (a' :: rest')))
end

/-- The partial specializations picked out by four flags, one for each of
`spec_exact`, `spec_pointer`, `spec_array` and `spec_fnptr`. -/
def flagged (e p a f : Bool) : List (Choice × Spec) :=
  specializations.filter (fun c =>
    match c.1 with
    | .exact => e | .pointer => p | .array => a | .fnptr => f | .primary => false)

/-! ## Pointer metafunctions -/

/-- `add_pointer<T>::type` (lines 182-186): `using type = T *;`. -/
def add_pointer (t : CType) : Except Reject CType :=
  mk_ptr t

/-- `add_pointer_fwd<T>::type` (lines 188-191): the member `type` inherited from
the base class `type_is<T *>`. -/
def add_pointer_fwd (t : CType) : Except Reject CType :=
  (mk_ptr t).map type_is

/-- `add_pointer_fwd_t<T>` (lines 193-194):
`typename add_pointer_fwd<T>::type`. -/
def add_pointer_fwd_t (t : CType) : Except Reject CType :=
  add_pointer_fwd t

/-- The type `T const` for a template type parameter `T`: the `const` of an
array goes to its elements, and a reference or a function type takes none. -/
def add_const : CType → CType
  | .base _ b => .base true b
  | .ptr _ t => .ptr true t
  | .lref t => .lref t
  | .arr t n => .arr (add_const t) n
  | .fn r args => .fn r args

/-- `add_const_pointer<T>::type` (lines 217-220): the member `type` inherited
from the base class `add_pointer_fwd<T const>`. -/
def add_const_pointer (t : CType) : Except Reject CType :=
  add_pointer_fwd (add_const t)

/-- `add_const_pointer_t<T>` (lines 222-223):
`typename add_const_pointer<T>::type`. -/
def add_const_pointer_t (t : CType) : Except Reject CType :=
  add_const_pointer t

/-- An object type: not a function type, not a reference type and not `void`. -/
def is_object_type : CType → Bool
  | .fn _ _ => false
  | .lref _ => false
  | .base _ .void => false
  | _ => true

/-! ## Literals as template arguments, and types as terms -/

/-- The use `binary<n>` with the literal `n`: the template parameter of `binary`
is a `std::size_t` (line 116), a literal that is not below `2 ^ 64` has no
value of that type and is not a template argument. -/
def binary_literal (n : Nat) : Option CVal :=
  if n < SIZE_MOD then binary n else none

/-- The literal whose decimal digits are the binary digits of `k`. -/
def binary_digits_as_decimal (k : Nat) : Nat :=
  Nat.ofDigits 10 (Nat.digits 2 k)

mutual
/-- The term stands for a C++ type as far as function types go: every
parameter type of every function type in it is an adjusted one. -/
def CType.params_adjusted : CType → Bool
  | .base _ _ => true
  | .ptr _ t => t.params_adjusted
  | .lref t => t.params_adjusted
  | .arr t _ => t.params_adjusted
  | .fn r args => r.params_adjusted && CType.params_adjusted_list args
/-- Every type of the list is an adjusted parameter type and stands for a C++
type. -/
def CType.params_adjusted_list : List CType → Bool
  | [] => true
  | a :: rest =>
    decide (adjust_param a = a) && a.params_adjusted && CType.params_adjusted_list rest
end

/-! ## Calls and overload resolution (`10_tuple.cpp`) -/

/-- The types of the elements of the tuples, pairs and arrays: the arithmetic
types, `char const *`, and copyable class types without conversion functions
(one for each `id`).  The argument of a call is the element itself, an lvalue:
a top-level `const` of the element type or a reference to the element changes
nothing in overload resolution and is left out. -/
inductive ArgType where
  | int | long | char | float | double | size_t | char_const_ptr
  | cls (id : Nat)
  deriving DecidableEq, Repr

/-- An element of a tuple, pair or array.  The payload of a floating value is
its bit pattern, which no function of the source looks at. -/
inductive Val where
  | int_ (v : Int)
  | long_ (v : Int)
  | char_ (v : Int)
  | float_ (bits : Nat)
  | double_ (bits : Nat)
  | size_t_ (v : Nat)
  | char_const_ptr (addr : Nat)
  | obj (id : Nat) (payload : Nat)
  deriving DecidableEq, Repr

/-- The type of an element. -/
def Val.type : Val → ArgType
  | .int_ _ => .int
  | .long_ _ => .long
  | .char_ _ => .char
  | .float_ _ => .float
  | .double_ _ => .double
  | .size_t_ _ => .size_t
  | .char_const_ptr _ => .char_const_ptr
  | .obj id _ => .cls id

/-- The arithmetic types. -/
def ArgType.is_arithmetic : ArgType → Bool
  | .cls _ => false
  | .char_const_ptr => false
  | _ => true

/-- The rank of the implicit conversion of an argument of type `a` to a
parameter of type `p` passed by value: 0 for an exact match, 1 for a promotion
(`char` to `int`, `float` to `double`), 2 for a conversion between arithmetic
types, `none` when there is no implicit conversion. -/
def conversion_rank (a p : ArgType) : Option Nat :=
  if a = p then some 0
  else
    match a, p with
    | .char, .int => some 1
    | .float, .double => some 1
    | _, _ => if a.is_arithmetic && p.is_arithmetic then some 2 else none

/-- An overload of `operator ()`: a function with parameters of the given
types, or a function template all of whose parameters have a template type
parameter of their own as type, `(T)` with `arity = some 1` and the pack
`(T... t)` with `arity = none`. -/
inductive Overload where
  | fixed (params : List ArgType)
  | generic (arity : Option Nat)
  deriving DecidableEq, Repr

/-- Whether the overload is a function template. -/
def Overload.is_template : Overload → Bool
  | .fixed _ => false
  | .generic _ => true

/-- The ranks of the conversions of the arguments to the parameters, `none`
when the numbers differ or an argument has no conversion. -/
def ranks_fixed : List ArgType → List ArgType → Option (List Nat)
  | [], [] => some []
  | a :: args, p :: params =>
    (conversion_rank a p).bind (fun r => (ranks_fixed args params).map (fun rs => r :: rs))
  | _, _ => none

/-- The ranks of the conversions of the arguments for an overload, `none` when
the overload is not viable.  A template parameter is deduced as the type of its
argument, an exact match. -/
def Overload.ranks (o : Overload) (args : List ArgType) : Option (List Nat) :=
  match o with
  | .fixed params => ranks_fixed args params
  | .generic none => some (args.map (fun _ => 0))
  | .generic (some n) => if n = args.length then some (args.map (fun _ => 0)) else none

/-- The overload `o1` is a better function than `o2` for the arguments: no
conversion is worse, and one is better or `o1` is no template while `o2` is
one. -/
def Overload.better (o1 o2 : Overload) (args : List ArgType) : Bool :=
  match o1.ranks args, o2.ranks args with
  | some r1, some r2 =>
    (List.zip r1 r2).all (fun p => decide (p.1 ≤ p.2)) &&
      ((List.zip r1 r2).any (fun p => decide (p.1 < p.2)) ||
        (!o1.is_template && o2.is_template))
  | _, _ => false

/-- Overload resolution: the viable overload that is better than every other
viable one, `none` when there is no such overload (the call is ill-formed). -/
def resolve {α : Type} (os : List (α × Overload)) (args : List ArgType) : Option α :=
  match (os.filter (fun c => (c.2.ranks args).isSome)).filter (fun c =>
      (os.filter (fun d => (d.2.ranks args).isSome)).all (fun d =>
        decide (d.2 = c.2) || c.2.better d.2 args)) with
  | [c] => some c.1
  | _ => none

/-- The least `int`. -/
def INT_MIN : Int := -2 ^ 31

/-- The greatest `int`. -/
def INT_MAX : Int := 2 ^ 31 - 1

/-- The sum of two `int`s; an overflow is undefined behaviour, `none`. -/
def int_add (a b : Int) : Option Int :=
  if INT_MIN ≤ a + b ∧ a + b ≤ INT_MAX then some (a + b) else none

/-! ## Traversal of a tuple -/

/-- The function object `my_func` (lines 13-26), with its member
`int val_ = 0;`. -/
structure my_func where
  val_ : Int
  deriving DecidableEq, Repr

/-- The three overloads of `my_func::operator ()`. -/
inductive my_func_op where
  | int | double | T
  deriving DecidableEq, Repr

/-- Lines 17-25: `operator () (int i)`, `operator () (double d)` and
`template <typename T> operator () (T)`. -/
def my_func_overloads : List (my_func_op × Overload) :=
  [(.int, .fixed [.int]), (.double, .fixed [.double]), (.T, .generic (some 1))]

/-- The call `f(x)` of a `my_func`: `val_ += i` for the overload for `int`,
`val_ += 10` for the one for `double`, nothing for the template. -/
def my_func.call (f : my_func) (x : Val) : Option my_func :=
  match resolve my_func_overloads [x.type], x with
  | some .int, .int_ i => (int_add f.val_ i).map my_func.mk
  | some .double, _ => (int_add f.val_ 10).map my_func.mk
  | some .T, _ => some f
  | _, _ => none

/-- `my_foreach_impl` (lines 29-34) for a function object of type `F` with the
call `call`: the elements of the braced list
`{ (f(std::get<i>(t)), 0)... }` are evaluated in their order, one call for each
index of the index sequence, then `return f;`.  An index that is not below the
size of the tuple makes `std::get` ill-formed. -/
def my_foreach_impl {F : Type} (call : F → Val → Option F) (f : F) (t : List Val) :
    List Nat → Option F
  | [] => some f
  | i :: rest =>
    match t[i]? with
    | none => none
    | some x => (call f x).bind (fun f' => my_foreach_impl call f' t rest)

/-- `my_foreach` (lines 36-44): `my_foreach_impl` with
`std::index_sequence_for<T...>`, the indices `0, ..., sizeof...(T) - 1`. -/
def my_foreach {F : Type} (call : F → Val → Option F) (f : F) (t : List Val) : Option F :=
  my_foreach_impl call f t (List.range t.length)

/-! ## `std::apply` -/

/-- The three overloads of `my_func_for_apply::operator ()`. -/
inductive my_func_for_apply_op where
  | int_ptr_double | int_ptr | pack
  deriving DecidableEq, Repr

/-- Lines 66-81: `operator () (int i, char const *, double d)`,
`operator () (int i, char const *)` and
`template <typename... T> operator () (T... t)`. -/
def my_func_for_apply_overloads : List (my_func_for_apply_op × Overload) :=
  [(.int_ptr_double, .fixed [.int, .char_const_ptr, .double]),
   (.int_ptr, .fixed [.int, .char_const_ptr]),
   (.pack, .generic none)]

/-- The sum `a + b` of two `std::size_t` (it wraps) or of two `int`; the
operands of other types are not modelled. -/
def plus : Val → Val → Option Val
  | .size_t_ a, .size_t_ b => some (.size_t_ ((a + b) % SIZE_MOD))
  | .int_ a, .int_ b => (int_add a b).map Val.int_
  | _, _ => none

/-- The right fold `(t + ...)` (line 79): `t_0 + (t_1 + (... + t_{N-1}))`; over
an empty pack it is ill-formed. -/
def fold_right_plus : List Val → Option Val
  | [] => none
  | [x] => some x
  | x :: y :: rest => (fold_right_plus (y :: rest)).bind (fun r => plus x r)

/-- The call of a `my_func_for_apply` with the arguments `args`: `i + 20` for
the two functions, the fold for the template. -/
def my_func_for_apply (args : List Val) : Option Val :=
  match resolve my_func_for_apply_overloads (args.map Val.type), args with
  | some .int_ptr_double, [.int_ i, _, _] => (int_add i 20).map Val.int_
  | some .int_ptr, [.int_ i, _] => (int_add i 20).map Val.int_
  | some .pack, _ => fold_right_plus args
  | _, _ => none

/-- The call `std::apply(f, t)`: `f` called with the elements of `t`, in their
order, as arguments. -/
def std_apply (f : List Val → Option Val) (t : List Val) : Option Val :=
  f t

/-! ## Reversal of a tuple type -/

/-- The difference `a - b` of two `std::size_t`, which wraps. -/
def size_t_sub (a b : Nat) : Nat :=
  (a + SIZE_MOD - b) % SIZE_MOD

/-- `std::tuple_element_t<i, std::tuple<params...>>`: the `i`-th type, and
ill-formed when `i` is not below the number of types. -/
def tuple_element (i : Nat) (params : List CType) : Option CType :=
  params[i]?

/-- `reverse_tuple_impl<std::tuple<params...>, SizeOfTuple,
std::index_sequence<i...>>::type` (lines 125-134): the tuple of the types
`std::tuple_element_t<SizeOfTuple - i - 1, std::tuple<params...>>...`. -/
def reverse_tuple_impl (params : List CType) (SizeOfTuple : Nat) :
    List Nat → Option (List CType)
  | [] => some []
  | i :: rest =>
    (tuple_element (size_t_sub (size_t_sub SizeOfTuple i) 1) params).bind (fun e =>
      (reverse_tuple_impl params SizeOfTuple rest).map (fun es => e :: es))

/-- `reverse_tuple<std::tuple<params...>>::type` (lines 139-146):
`reverse_tuple_impl` with `sizeof...(params)` and
`std::index_sequence_for<params...>`. -/
def reverse_tuple (params : List CType) : Option (List CType) :=
  reverse_tuple_impl params params.length (List.range params.length)

/-- The sum of the elements of a tuple whose type is `int`. -/
def sum_of_ints (t : List Val) : Int :=
  (t.filterMap (fun x => match x with
    | .int_ i => some i
    | _ => none)).sum

/-- The number of the elements of a tuple whose type is `double`. -/
def count_of_doubles (t : List Val) : Nat :=
  t.countP (fun x => decide (x.type = ArgType.double))


/-- What the call of a `my_func` on `x` adds to `val_`. -/
def added_by_call : Val → Int
  | .int_ i => i
  | .double_ _ => 10
  | _ => 0

/-! ### Lemmas on the factorial functions -/

theorem recursive_factorial_succ (i : Nat) :
    recursive_factorial (i + 1) = ((i + 1) * recursive_factorial i) % SIZE_MOD := by
  cases i with
  | zero => simp [recursive_factorial, SIZE_MOD]
  | succ k =>
    rw [recursive_factorial]
    simp

theorem recursive_factorial_eq_mod (n : Nat) :
    recursive_factorial n = n.factorial % SIZE_MOD := by
  induction n with
  | zero => simp [recursive_factorial, SIZE_MOD]
  | succ k ih =>
    rw [recursive_factorial_succ, ih, Nat.factorial_succ, Nat.mul_mod_mod]

theorem factorial_lt_of_le_twenty (n : Nat) (h : n ≤ 20) : n.factorial < SIZE_MOD := by
  have h20 : Nat.factorial 20 < SIZE_MOD := by decide
  exact lt_of_le_of_lt (Nat.factorial_le h) h20

theorem iterative_factorial_loop_mod (i val : Nat) :
    iterative_factorial_loop i val % SIZE_MOD = (val * i.factorial) % SIZE_MOD := by
  induction i generalizing val with
  | zero => simp [iterative_factorial_loop]
  | succ k ih =>
    rw [iterative_factorial_loop, ih, Nat.factorial_succ, Nat.mod_mul_mod, Nat.mul_assoc]

theorem iterative_factorial_loop_lt (i val : Nat) (h : val < SIZE_MOD) :
    iterative_factorial_loop i val < SIZE_MOD := by
  induction i generalizing val with
  | zero => simpa [iterative_factorial_loop] using h
  | succ k ih =>
    rw [iterative_factorial_loop]
    exact ih _ (Nat.mod_lt _ (by decide))

theorem iterative_factorial_eq_mod (n : Nat) :
    iterative_factorial n = n.factorial % SIZE_MOD := by
  have h1 := iterative_factorial_loop_mod n 1
  have h2 := iterative_factorial_loop_lt n 1 (by decide)
  rw [Nat.mod_eq_of_lt h2, Nat.one_mul] at h1
  exact h1

theorem CVal.mul_size_t (a : CVal) (b : Nat) :
    CVal.mul a (CVal.size_t_ b)
      = CVal.size_t_ ((a.to_size_t * (b % SIZE_MOD)) % SIZE_MOD) := by
  cases a <;> rfl

theorem factorial_t_general (k : Nat) :
    factorial_t (k + 2) = CVal.size_t_ ((k + 2).factorial % SIZE_MOD) := by
  induction k with
  | zero => decide
  | succ k ih =>
    rw [factorial_t, ih, CVal.mul_size_t]
    simp only [CVal.to_size_t]
    rw [Nat.mod_mod, ← Nat.mul_mod, Nat.factorial_succ (k + 2), Nat.mul_comm]

theorem factorial_t_val (n : Nat) :
    (factorial_t n).val = ((n.factorial % SIZE_MOD : Nat) : Int) := by
  match n with
  | 0 => decide
  | 1 => decide
  | k + 2 => rw [factorial_t_general]; rfl

/-! ### Lemmas on `binary` -/

theorem binary_zero : binary 0 = some (CVal.int_ 0) := by
  rw [binary]; simp

theorem binary_pos (i : Nat) (h : i ≠ 0) :
    binary i = if i % 10 = 0 ∨ i % 10 = 1 then
      (binary (i / 10)).map
        (fun v => CVal.add (CVal.mul v (CVal.int_ 2)) (CVal.size_t_ (i % 10)))
      else none := by
  rw [binary]; simp [h]

theorem digits_ten_pos (i : Nat) (h : i ≠ 0) :
    Nat.digits 10 i = (i % 10) :: Nat.digits 10 (i / 10) :=
  Nat.digits_def' (by decide) (Nat.pos_of_ne_zero h)

theorem CVal.to_size_t_int_two : (CVal.int_ 2).to_size_t = 2 := by decide

theorem CVal.binary_step_val (v : CVal) (d : Nat) :
    CVal.add (CVal.mul v (CVal.int_ 2)) (CVal.size_t_ d)
      = CVal.size_t_ ((v.to_size_t * 2 + d) % SIZE_MOD) := by
  cases v with
  | int_ a =>
    simp only [CVal.mul, CVal.add, CVal.to_size_t, SIZE_MOD]
    congr 1
    push_cast
    omega
  | size_t_ k =>
    simp only [CVal.mul, CVal.add, CVal.to_size_t, SIZE_MOD]
    congr 1
    push_cast
    omega

/-- The digits read in base 2 are at most the digits read in base 10. -/
theorem ofDigits_two_le (i : Nat) : Nat.ofDigits 2 (Nat.digits 10 i) ≤ i := by
  have h := Nat.ofDigits_monotone (Nat.digits 10 i) (show 2 ≤ 10 by decide)
  rwa [Nat.ofDigits_digits] at h

theorem binary_invariant (n : Nat) (hn : n < SIZE_MOD)
    (hd : ∀ d ∈ Nat.digits 10 n, d = 0 ∨ d = 1) :
    ∃ v, binary n = some v ∧ v.val = (Nat.ofDigits 2 (Nat.digits 10 n) : Nat)
      ∧ v.to_size_t = Nat.ofDigits 2 (Nat.digits 10 n) := by
  induction n using Nat.strong_induction_on with
  | _ n ih =>
    by_cases h0 : n = 0
    · subst h0
      exact ⟨CVal.int_ 0, binary_zero, by simp [CVal.val], by simp [CVal.to_size_t]⟩
    · have hdig := digits_ten_pos n h0
      rw [hdig] at hd
      have hlast : n % 10 = 0 ∨ n % 10 = 1 := hd _ (List.mem_cons_self _ _)
      have hrest : ∀ d ∈ Nat.digits 10 (n / 10), d = 0 ∨ d = 1 :=
        fun d hm => hd d (List.mem_cons_of_mem _ hm)
      obtain ⟨v, hv, _, hvs⟩ := ih (n / 10) (by omega) (by omega) hrest
      have hle := ofDigits_two_le n
      rw [hdig, Nat.ofDigits_cons] at hle
      have hlt : (Nat.ofDigits 2 (Nat.digits 10 (n / 10)) * 2 + n % 10) % SIZE_MOD
          = n % 10 + 2 * Nat.ofDigits 2 (Nat.digits 10 (n / 10)) := by
        rw [Nat.mod_eq_of_lt (by omega)]; omega
      refine ⟨CVal.size_t_ (n % 10 + 2 * Nat.ofDigits 2 (Nat.digits 10 (n / 10))), ?_, ?_, ?_⟩
      · rw [binary_pos n h0, if_pos hlast, hv, Option.map_some', CVal.binary_step_val, hvs, hlt]
      · rw [hdig, Nat.ofDigits_cons]; rfl
      · rw [hdig, Nat.ofDigits_cons]
        simp only [CVal.to_size_t]
        exact Nat.mod_eq_of_lt (by omega)

theorem binary_eq_none_iff (n : Nat) :
    binary n = none ↔ ∃ d ∈ Nat.digits 10 n, ¬ (d = 0 ∨ d = 1) := by
  induction n using Nat.strong_induction_on with
  | _ n ih =>
    by_cases h0 : n = 0
    · subst h0
      simp [binary_zero]
    · rw [binary_pos n h0, digits_ten_pos n h0]
      by_cases hlast : n % 10 = 0 ∨ n % 10 = 1
      · rw [if_pos hlast, Option.map_eq_none', ih (n / 10) (by omega)]
        constructor
        · rintro ⟨d, hm, hne⟩
          exact ⟨d, List.mem_cons_of_mem _ hm, hne⟩
        · rintro ⟨d, hm, hne⟩
          rcases List.mem_cons.mp hm with rfl | hm
          · exact absurd hlast hne
          · exact ⟨d, hm, hne⟩
      · rw [if_neg hlast]
        exact ⟨fun _ => ⟨n % 10, List.mem_cons_self _ _, hlast⟩, fun _ => rfl⟩

/-! ### Lemmas on `replace_type` -/

open CType Base

theorem CType.ne_ptr_self (c : Bool) (t : CType) : t ≠ ptr c t := by
  intro h
  have := congrArg sizeOf h
  simp at this

theorem CType.ne_arr_ptr_self (c : Bool) (t : CType) (n : Nat) : t ≠ arr (ptr c t) n := by
  intro h
  have := congrArg sizeOf h
  simp at this
  omega

theorem CType.ne_arr_self (t : CType) (n : Nat) : t ≠ arr t n := by
  intro h
  have := congrArg sizeOf h
  simp at this
  omega

theorem spec_exact_matches (t s g : CType) :
    spec_exact.matches_args t s g = decide (t = s) := by
  simp [Spec.matches_args, spec_exact, deduce, deduce_var, List.lookup]
  by_cases h : t = s <;> simp [h, List.lookup_cons]

theorem spec_pointer_matches (t s g : CType) :
    spec_pointer.matches_args t s g = decide (t = ptr false s) := by
  cases t with
  | ptr c u =>
    cases c
    · simp [Spec.matches_args, spec_pointer, deduce, deduce_var, List.lookup]
      by_cases h : u = s <;> simp [h, List.lookup_cons]
    · simp [Spec.matches_args, spec_pointer, deduce]
  | _ => simp [Spec.matches_args, spec_pointer, deduce]

theorem no_more_specialized :
    ∀ p ∈ specializations, ∀ q ∈ specializations, p.2.more_specialized q.2 = false := by
  decide

theorem most_specialized_flagged : ∀ e p a f : Bool,
    most_specialized (flagged e p a f) =
      match e, p, a, f with
      | false, false, false, false => .ok .primary
      | true, false, false, false => .ok .exact
      | false, true, false, false => .ok .pointer
      | false, false, true, false => .ok .array
      | false, false, false, true => .ok .fnptr
      | _, _, _, _ => .error .ambiguous := by
  decide


theorem spec_array_matches (t s g : CType) :
    spec_array.matches_args t s g = true ↔ ∃ n, t = arr (ptr false s) n := by
  cases t with
  | arr u n =>
    cases u with
    | ptr c w =>
      cases c
      · simp [Spec.matches_args, spec_array, deduce, deduce_var, List.lookup]
        by_cases h : w = s <;> simp [h, List.lookup_cons]
      · simp [Spec.matches_args, spec_array, deduce]
    | _ => simp [Spec.matches_args, spec_array, deduce]
  | _ => simp [Spec.matches_args, spec_array, deduce]

theorem spec_fnptr_matches (t s g : CType) :
    spec_fnptr.matches_args t s g = true ↔ ∃ r a, t = ptr false (fn r a) := by
  cases t with
  | ptr c u =>
    cases u with
    | fn r a =>
      cases c
      · simp [Spec.matches_args, spec_fnptr, deduce, deduce_var, List.lookup, List.lookup_cons]
      · simp [Spec.matches_args, spec_fnptr, deduce]
    | _ => cases c <;> simp [Spec.matches_args, spec_fnptr, deduce]
  | _ => simp [Spec.matches_args, spec_fnptr, deduce]

theorem matching_eq_flagged (t s g : CType) :
    matching t s g = flagged (spec_exact.matches_args t s g) (spec_pointer.matches_args t s g)
      (spec_array.matches_args t s g) (spec_fnptr.matches_args t s g) := by
  simp [matching, flagged, specializations, List.filter]


theorem select_eq_flagged (t s g : CType) :
    select t s g = most_specialized (flagged (spec_exact.matches_args t s g)
      (spec_pointer.matches_args t s g) (spec_array.matches_args t s g)
      (spec_fnptr.matches_args t s g)) := by
  rw [select, matching_eq_flagged]

theorem spec_array_matches_false (t s g : CType) (h : ∀ n, t ≠ arr (ptr false s) n) :
    spec_array.matches_args t s g = false := by
  rw [Bool.eq_false_iff, Ne, spec_array_matches]
  rintro ⟨n, hn⟩
  exact h n hn

theorem spec_fnptr_matches_false (t s g : CType) (h : ∀ r a, t ≠ ptr false (fn r a)) :
    spec_fnptr.matches_args t s g = false := by
  rw [Bool.eq_false_iff, Ne, spec_fnptr_matches]
  rintro ⟨r, a, hn⟩
  exact h r a hn

theorem select_primary (t s g : CType) (h1 : t ≠ s) (h2 : t ≠ ptr false s)
    (h3 : ∀ n, t ≠ arr (ptr false s) n) (h4 : ∀ r a, t ≠ ptr false (fn r a)) :
    select t s g = .ok .primary := by
  rw [select_eq_flagged, spec_exact_matches, spec_pointer_matches,
    spec_array_matches_false t s g h3, spec_fnptr_matches_false t s g h4,
    decide_eq_false h1, decide_eq_false h2]
  rfl

theorem select_exact (s g : CType) (h4 : ∀ r a, s ≠ ptr false (fn r a)) :
    select s s g = .ok .exact := by
  rw [select_eq_flagged, spec_exact_matches, spec_pointer_matches,
    spec_array_matches_false s s g (fun n => CType.ne_arr_ptr_self false s n),
    spec_fnptr_matches_false s s g h4,
    decide_eq_false (CType.ne_ptr_self false s), decide_eq_true rfl]
  rfl

theorem select_pointer (s g : CType) (h4 : ∀ r a, s ≠ fn r a) :
    select (ptr false s) s g = .ok .pointer := by
  rw [select_eq_flagged, spec_exact_matches, spec_pointer_matches,
    spec_array_matches_false (ptr false s) s g (fun n => by simp),
    spec_fnptr_matches_false (ptr false s) s g (fun r a h => h4 r a (by injection h)),
    decide_eq_false (Ne.symm (CType.ne_ptr_self false s)), decide_eq_true rfl]
  rfl

theorem select_array (s g : CType) (n : Nat) :
    select (arr (ptr false s) n) s g = .ok .array := by
  rw [select_eq_flagged, spec_exact_matches, spec_pointer_matches,
    (spec_array_matches (arr (ptr false s) n) s g).mpr ⟨n, rfl⟩,
    spec_fnptr_matches_false (arr (ptr false s) n) s g (fun r a => by simp),
    decide_eq_false (Ne.symm (CType.ne_arr_ptr_self false s n)),
    decide_eq_false (by simp)]
  rfl

theorem select_fnptr (r : CType) (a : List CType) (s g : CType)
    (h1 : ptr false (fn r a) ≠ s) (h2 : fn r a ≠ s) :
    select (ptr false (fn r a)) s g = .ok .fnptr := by
  rw [select_eq_flagged, spec_exact_matches, spec_pointer_matches,
    spec_array_matches_false (ptr false (fn r a)) s g (fun n => by simp),
    (spec_fnptr_matches (ptr false (fn r a)) s g).mpr ⟨r, a, rfl⟩,
    decide_eq_false h1, decide_eq_false (fun h => h2 (by injection h))]
  rfl

theorem select_ambiguous_iff (t s g : CType) :
    select t s g = .error .ambiguous ↔
      (∃ r a, t = ptr false (fn r a)) ∧ (t = s ∨ t = ptr false s) := by
  constructor
  · intro h
    by_cases h4 : ∃ r a, t = ptr false (fn r a)
    · refine ⟨h4, ?_⟩
      by_contra hne
      push_neg at hne
      obtain ⟨r, a, rfl⟩ := h4
      rw [select_fnptr r a s g hne.1 (fun e => hne.2 (by rw [e]))] at h
      cases h
    · exfalso
      push_neg at h4
      rw [select_eq_flagged, spec_exact_matches, spec_pointer_matches,
        spec_fnptr_matches_false t s g h4] at h
      by_cases h1 : t = s
      · subst h1
        rw [spec_array_matches_false t t g (fun n => CType.ne_arr_ptr_self false t n),
          decide_eq_false (CType.ne_ptr_self false t), decide_eq_true rfl] at h
        cases h
      · by_cases h2 : t = ptr false s
        · subst h2
          rw [spec_array_matches_false (ptr false s) s g (fun n => by simp),
            decide_eq_false h1, decide_eq_true rfl] at h
          cases h
        · rw [decide_eq_false h1, decide_eq_false h2] at h
          cases hb : spec_array.matches_args t s g <;> rw [hb] at h <;> cases h
  · rintro ⟨⟨r, a, rfl⟩, h⟩
    rw [select_eq_flagged, spec_exact_matches, spec_pointer_matches,
      spec_array_matches_false (ptr false (fn r a)) s g (fun n => by simp),
      (spec_fnptr_matches (ptr false (fn r a)) s g).mpr ⟨r, a, rfl⟩]
    rcases h with h | h
    · rw [decide_eq_true h]
      cases decide (ptr false (fn r a) = ptr false s) <;> rfl
    · rw [decide_eq_true h]
      cases decide (ptr false (fn r a) = s) <;> rfl


theorem replace_type_unfold (t s g : CType) :
    replace_type t s g =
      (select t s g).bind (fun c =>
        member_type c t g
          (match t with
           | .ptr _ (.fn r args) =>
             (replace_type r s g).bind (fun ret_t =>
               (replace_type_pack args s g).bind (fun params =>
                 mk_fn_ptr ret_t params))
           | _ => .error .ill_formed)) := by
  cases t with
  | ptr c u => cases u <;> rfl
  | _ => rfl

theorem replace_type_of_primary (t s g : CType) (h : select t s g = .ok .primary) :
    replace_type t s g = .ok t := by
  rw [replace_type_unfold, h]
  rfl

theorem replace_type_of_exact (t s g : CType) (h : select t s g = .ok .exact) :
    replace_type t s g = .ok g := by
  rw [replace_type_unfold, h]
  rfl

theorem replace_type_of_pointer (t s g : CType) (h : select t s g = .ok .pointer) :
    replace_type t s g = mk_ptr g := by
  rw [replace_type_unfold, h]
  cases g <;> rfl

theorem replace_type_of_array (u : CType) (n : Nat) (s g : CType)
    (h : select (arr u n) s g = .ok .array) :
    replace_type (arr u n) s g = (mk_ptr g).map (fun p => arr p n) := by
  rw [replace_type_unfold, h]
  rfl

theorem replace_type_of_fnptr (r : CType) (a : List CType) (s g : CType)
    (h : select (ptr false (fn r a)) s g = .ok .fnptr) :
    replace_type (ptr false (fn r a)) s g =
      (replace_type r s g).bind (fun ret_t =>
        (replace_type_pack a s g).bind (fun params => mk_fn_ptr ret_t params)) := by
  rw [replace_type_unfold, h]
  rfl

theorem replace_type_of_ambiguous (t s g : CType) (h : select t s g = .error .ambiguous) :
    replace_type t s g = .error .ambiguous := by
  rw [replace_type_unfold, h]
  rfl

theorem mk_ptr_of_not_ref (g : CType) (h : ∀ u, g ≠ lref u) : mk_ptr g = .ok (ptr false g) := by
  cases g with
  | lref u => exact absurd rfl (h u)
  | _ => rfl

theorem replace_type_pack_ok_iff (a : List CType) (s g : CType) (ps : List CType) :
    replace_type_pack a s g = .ok ps ↔
      List.Forall₂ (fun x p => replace_type x s g = .ok p) a ps := by
  induction a generalizing ps with
  | nil =>
    rw [replace_type_pack]
    constructor
    · intro h
      injection h with h
      subst h
      exact List.Forall₂.nil
    · intro h
      cases h
      rfl
  | cons x rest ih =>
    rw [replace_type_pack]
    constructor
    · intro h
      cases hx : replace_type x s g with
      | error e => rw [hx] at h; cases h
      | ok x' =>
        cases hr : replace_type_pack rest s g with
        | error e => rw [hx, hr] at h; cases h
        | ok rest' =>
          rw [hx, hr] at h
          have h' : x' :: rest' = ps := by injection h
          subst h'
          exact List.Forall₂.cons hx ((ih rest').mp hr)
    · intro h
      cases h with
      | cons hx hrest =>
        rw [hx, (ih _).mpr hrest]
        rfl

theorem forall₂_iff_getElem? {α β : Type} (R : α → β → Prop) (a : List α) (b : List β) :
    List.Forall₂ R a b ↔
      b.length = a.length ∧ ∀ (k : Nat) (x : α), a[k]? = some x → ∃ y, b[k]? = some y ∧ R x y := by
  induction a generalizing b with
  | nil =>
    constructor
    · intro h
      cases h
      simp
    · rintro ⟨hl, _⟩
      have : b = [] := List.length_eq_zero.mp hl
      subst this
      exact List.Forall₂.nil
  | cons x xs ih =>
    constructor
    · intro h
      cases h with
      | cons hxy hrest =>
        obtain ⟨hl, hk⟩ := (ih _).mp hrest
        refine ⟨by simp [hl], ?_⟩
        intro k z hz
        cases k with
        | zero =>
          simp at hz
          subst hz
          exact ⟨_, by simp, hxy⟩
        | succ k =>
          simp at hz
          simpa using hk k z hz
    · rintro ⟨hl, hk⟩
      cases b with
      | nil => simp at hl
      | cons y ys =>
        refine List.Forall₂.cons ?_ ((ih ys).mpr ⟨by simpa using hl, ?_⟩)
        · obtain ⟨y', hy', hR⟩ := hk 0 x (by simp)
          simp at hy'
          subst hy'
          exact hR
        · intro k z hz
          simpa using hk (k + 1) z (by simpa using hz)


/-! ## The claims on the numeric metafunctions -/

/-- C1: for every `n`, `recursive_factorial(n)` is `n!` computed in `std::size_t`
arithmetic, that is `n!` reduced modulo `2 ^ 64`, hence exactly `n!` for every
`n ≤ 20`; `recursive_factorial(0) = recursive_factorial(1) = 1` and
`recursive_factorial(5) = 120`. -/
theorem recursive_factorial_correct (n : Nat) :
    recursive_factorial n = n.factorial % 2 ^ 64 ∧
    (n ≤ 20 → recursive_factorial n = n.factorial) ∧
    recursive_factorial 0 = 1 ∧ recursive_factorial 1 = 1 ∧
    recursive_factorial 5 = 120 := by
  refine ⟨recursive_factorial_eq_mod n, fun h => ?_, by decide, by decide, by decide⟩
  rw [recursive_factorial_eq_mod, Nat.mod_eq_of_lt (factorial_lt_of_le_twenty n h)]

/-- The largest exact factorial: `recursive_factorial(20)` is `20!`. -/
theorem recursive_factorial_correct_witness :
    recursive_factorial 20 = Nat.factorial 20 :=
  (recursive_factorial_correct 20).2.1 (by decide)

/-- C2: for every `n`, the loop-based `iterative_factorial(n)` and the recursive
`recursive_factorial(n)` return the same value, also when the product wraps
modulo `2 ^ 64` (as it does for `n = 21`). -/
theorem iterative_factorial_eq_recursive (n : Nat) :
    iterative_factorial n = recursive_factorial n ∧
    iterative_factorial 21 = Nat.factorial 21 % 2 ^ 64 ∧
    Nat.factorial 21 % 2 ^ 64 ≠ Nat.factorial 21 := by
  refine ⟨?_, iterative_factorial_eq_mod 21, by decide⟩
  rw [iterative_factorial_eq_mod, recursive_factorial_eq_mod]

/-- C3: for every `n`, `factorial_t<n>::value` equals `recursive_factorial(n)`
and `iterative_factorial(n)`; `factorial_t<0>::value = 1`,
`factorial_t<1>::value = 1`, `factorial_t<5>::value = 120` and
`factorial_t<iterative_factorial(3)>::value = 720`. -/
theorem factorial_t_eq_functions (n : Nat) :
    (factorial_t n).val = (recursive_factorial n : Int) ∧
    (factorial_t n).val = (iterative_factorial n : Int) ∧
    (factorial_t 0).val = 1 ∧ (factorial_t 1).val = 1 ∧ (factorial_t 5).val = 120 ∧
    (factorial_t (iterative_factorial 3)).val = 720 := by
  refine ⟨?_, ?_, by decide, by decide, by decide, by decide⟩
  · rw [factorial_t_val, recursive_factorial_eq_mod]
  · rw [factorial_t_val, iterative_factorial_eq_mod]

/-- C4: for every literal `n` that fits `std::size_t` and whose decimal digits
`d_k ... d_1 d_0` are all 0 or 1, `binary<n>` has a value and it is the sum over
`i` of `d_i * 2 ^ i`; `binary<0> = 0`, `binary<1010> = 10`, `binary<10000> = 16`
and `binary<1011> = 11`. -/
theorem binary_value (n : Nat) (hn : n < 2 ^ 64)
    (hd : ∀ d ∈ Nat.digits 10 n, d = 0 ∨ d = 1) :
    (∃ v, binary n = some v ∧
      v.val = ((((Nat.digits 10 n).mapIdx (fun i d => d * 2 ^ i)).sum : Nat) : Int)) ∧
    (binary 0).map CVal.val = some 0 ∧ (binary 1010).map CVal.val = some 10 ∧
    (binary 10000).map CVal.val = some 16 ∧ (binary 1011).map CVal.val = some 11 := by
  refine ⟨?_, ?_, ?_, ?_, ?_⟩
  · obtain ⟨v, hv, hval, _⟩ := binary_invariant n hn hd
    exact ⟨v, hv, by rw [hval, Nat.ofDigits_eq_sum_mapIdx]⟩
  · rw [binary_zero]; rfl
  · simp [binary]; decide
  · simp [binary]; decide
  · simp [binary]; decide

/-- The literal `1011` has the value 11. -/
theorem binary_value_witness :
    ∃ v, binary 1011 = some v ∧
      v.val = ((((Nat.digits 10 1011).mapIdx (fun i d => d * 2 ^ i)).sum : Nat) : Int) :=
  (binary_value 1011 (by norm_num) (by norm_num)).1

/-- C5: for every literal `n` that fits `std::size_t`, the type of the template
parameter, `binary<n>` is rejected if and only if some decimal digit of `n` is
other than 0 or 1: a `static_assert` of the chain `binary<n>`,
`binary<n / 10>`, ... fails exactly then, and the use `binary<n>` of the
literal is rejected exactly then; every such literal made only of the digits 0
and 1 is accepted, and `binary<1210>` is rejected. -/
theorem binary_rejected_iff (n : Nat) (hn : n < 2 ^ 64) :
    (binary n = none ↔ ∃ d ∈ Nat.digits 10 n, d ≠ 0 ∧ d ≠ 1) ∧
    (binary_literal n = none ↔ ∃ d ∈ Nat.digits 10 n, d ≠ 0 ∧ d ≠ 1) ∧
    ((∀ d ∈ Nat.digits 10 n, d = 0 ∨ d = 1) →
      (binary n).isSome = true ∧ (binary_literal n).isSome = true) ∧
    binary 1210 = none ∧ binary_literal 1210 = none := by
  have h := binary_eq_none_iff n
  have hn' : n < SIZE_MOD := hn
  have hlit : binary_literal n = binary n := by
    unfold binary_literal
    rw [if_pos hn']
  have hiff : binary n = none ↔ ∃ d ∈ Nat.digits 10 n, d ≠ 0 ∧ d ≠ 1 := by
    rw [h]
    constructor
    · rintro ⟨d, hm, hne⟩
      exact ⟨d, hm, fun h0 => hne (Or.inl h0), fun h1 => hne (Or.inr h1)⟩
    · rintro ⟨d, hm, h0, h1⟩
      exact ⟨d, hm, fun hor => hor.elim h0 h1⟩
  have h1210 : binary 1210 = none := by simp [binary]
  refine ⟨hiff, by rw [hlit]; exact hiff, fun hall => ?_, h1210, ?_⟩
  · have hsome : (binary n).isSome = true := by
      rw [Option.isSome_iff_ne_none]
      intro hnone
      obtain ⟨d, hm, hne⟩ := h.mp hnone
      exact hne (hall d hm)
    exact ⟨hsome, by rw [hlit]; exact hsome⟩
  · unfold binary_literal SIZE_MOD
    rw [if_pos (by decide), h1210]

/-- The literal `101` fits `std::size_t`, has the digits 1, 0, 1 and is
accepted. -/
theorem binary_rejected_iff_witness :
    (binary 101).isSome = true ∧ (binary_literal 101).isSome = true :=
  (binary_rejected_iff 101 (by norm_num)).2.2.1 (by norm_num)

/-- C6: for every non-empty index sequence `i_0, ..., i_{k-1}`,
`factorials<i_0, ..., i_{k-1}>` is an array of exactly `k` elements whose `j`-th
element is `iterative_factorial(i_j)`; `factorials<3, 4, 5>` has size 3 and is
`[6, 24, 120]`. -/
theorem factorials_spec (i : List Nat) (h : i ≠ []) :
    (∃ a, factorials i = some a ∧ a.length = i.length ∧
      ∀ (j : Nat) (x : Nat), i[j]? = some x → a[j]? = some (iterative_factorial x)) ∧
    factorials [3, 4, 5] = some [6, 24, 120] ∧
    (factorials [3, 4, 5]).map List.length = some 3 := by
  refine ⟨⟨i.map iterative_factorial, ?_, by simp, ?_⟩, by decide, by decide⟩
  · have hl : i.length ≠ 0 := fun h0 => h (List.length_eq_zero.mp h0)
    simp [factorials, hl]
  · intro j x hx
    simp [hx]

/-- The sequence `5, 0, 3` gives an array with `iterative_factorial(3)` at index 2. -/
theorem factorials_spec_witness :
    ∃ a, factorials [5, 0, 3] = some a ∧ a.length = 3 ∧
      ∀ (j : Nat) (x : Nat), [5, 0, 3][j]? = some x → a[j]? = some (iterative_factorial x) :=
  (factorials_spec [5, 0, 3] (by decide)).1

theorem except_bind_eq_ok {α β : Type} (x : Except Reject α) (f : α → Except Reject β) (b : β) :
    x.bind f = .ok b ↔ ∃ a, x = .ok a ∧ f a = .ok b := by
  cases x with
  | error e =>
    constructor
    · intro h; cases h
    · rintro ⟨a, ha, _⟩; cases ha
  | ok a =>
    constructor
    · intro h; exact ⟨a, rfl, h⟩
    · rintro ⟨a', ha, h⟩
      cases ha
      exact h

theorem mk_fn_ptr_eq_ok (ret : CType) (params : List CType) (x : CType) :
    mk_fn_ptr ret params = .ok x ↔
      returnable ret = true ∧ (∀ p ∈ params, is_void p = false) ∧
        x = ptr false (fn ret (params.map adjust_param)) := by
  unfold mk_fn_ptr
  by_cases h : (returnable ret && !(params.any is_void)) = true
  · rw [if_pos h]
    simp only [Bool.and_eq_true, Bool.not_eq_true', List.any_eq_false] at h
    constructor
    · intro e
      injection e with e
      exact ⟨h.1, fun p hp => by simpa using h.2 p hp, e.symm⟩
    · rintro ⟨_, _, e⟩
      rw [e]
  · rw [if_neg h]
    constructor
    · intro e; cases e
    · rintro ⟨h1, h2, _⟩
      exfalso
      apply h
      simp only [Bool.and_eq_true, Bool.not_eq_true', List.any_eq_false]
      exact ⟨h1, fun p hp => by simpa using h2 p hp⟩

theorem replace_type_fnptr_eq_ok (r : CType) (a : List CType) (s g x : CType)
    (h1 : ptr false (fn r a) ≠ s) (h2 : fn r a ≠ s) :
    replace_type (ptr false (fn r a)) s g = .ok x ↔
      ∃ (ret_t : CType) (params : List CType),
        replace_type r s g = .ok ret_t ∧ params.length = a.length ∧
        (∀ (k : Nat) (t : CType), a[k]? = some t →
          ∃ p, params[k]? = some p ∧ replace_type t s g = .ok p) ∧
        returnable ret_t = true ∧ (∀ p ∈ params, is_void p = false) ∧
        x = ptr false (fn ret_t (params.map adjust_param)) := by
  rw [replace_type_of_fnptr r a s g (select_fnptr r a s g h1 h2), except_bind_eq_ok]
  constructor
  · rintro ⟨ret_t, hr, hrest⟩
    rw [except_bind_eq_ok] at hrest
    obtain ⟨params, hp, hmk⟩ := hrest
    rw [replace_type_pack_ok_iff, forall₂_iff_getElem?] at hp
    rw [mk_fn_ptr_eq_ok] at hmk
    exact ⟨ret_t, params, hr, hp.1, hp.2, hmk⟩
  · rintro ⟨ret_t, params, hr, hl, hk, hmk⟩
    refine ⟨ret_t, hr, ?_⟩
    rw [except_bind_eq_ok]
    refine ⟨params, ?_, (mk_fn_ptr_eq_ok _ _ _).mpr hmk⟩
    rw [replace_type_pack_ok_iff, forall₂_iff_getElem?]
    exact ⟨hl, hk⟩

theorem most_specialized_flagged_fnptr : ∀ e p a f : Bool,
    most_specialized (flagged e p a f) = .ok .fnptr → f = true := by
  decide

theorem select_fnptr_only (t s g : CType) (h : select t s g = .ok .fnptr) :
    ∃ r a, t = ptr false (fn r a) := by
  rw [select_eq_flagged] at h
  exact (spec_fnptr_matches t s g).mp (most_specialized_flagged_fnptr _ _ _ _ h)

theorem replace_type_not_ambiguous_of_not_fnptr (t s g : CType)
    (h : ∀ r a, t ≠ ptr false (fn r a)) : replace_type t s g ≠ .error .ambiguous := by
  have hsel : select t s g ≠ .error .ambiguous := by
    intro hs
    obtain ⟨⟨r, a, e⟩, _⟩ := (select_ambiguous_iff t s g).mp hs
    exact h r a e
  rw [replace_type_unfold]
  cases hc : select t s g with
  | error e =>
    cases e with
    | ambiguous => exact absurd hc hsel
    | ill_formed => intro h'; cases h'
  | ok c =>
    cases c with
    | primary => intro h'; cases h'
    | exact => intro h'; cases h'
    | pointer => cases g <;> (intro h'; cases h')
    | array =>
      cases t with
      | arr u n => cases g <;> (intro h'; cases h')
      | _ => intro h'; cases h'
    | fnptr =>
      obtain ⟨r, a, e⟩ := select_fnptr_only t s g hc
      exact absurd e (h r a)

/-! ## The claims on `replace_type` -/

/-- C7 as stated fails: for `S = void (*) ()`, `replace_type<S, S, int>` matches
both `replace_type<S, S, T>` and `replace_type<R (*) (Arg...), S, T>`, and for
`S = void ()`, `replace_type<S *, S, int>` matches both `replace_type<S *, S, T>`
and the function-pointer specialization; neither is more specialized, so the
instantiations are ambiguous and give no type.  For `Tgt = int &` the type
`Tgt *` of `replace_type<void *, void, int &>` cannot be formed. -/
theorem replace_type_patterns_counterexample :
    replace_type (ptr false (fn (base false void) [])) (ptr false (fn (base false void) []))
        (base false int) = .error .ambiguous ∧
    replace_type (ptr false (fn (base false void) [])) (ptr false (fn (base false void) []))
        (base false int) ≠ .ok (base false int) ∧
    replace_type (ptr false (fn (base false void) [])) (fn (base false void) [])
        (base false int) = .error .ambiguous ∧
    replace_type (ptr false (base false void)) (base false void) (lref (base false int))
        = .error .ill_formed := by
  decide

/-- C7 (amended): for all types `S`, `Tgt` and every extent `N`,
`replace_type_t<S, S, Tgt>` is `Tgt` when `S` is not a function-pointer type
`R (*) (A...)`; `replace_type_t<S *, S, Tgt>` is `Tgt *` when `S` is not a
function type and `Tgt` is not a reference; `replace_type_t<S * [N], S, Tgt>` is
`Tgt * [N]` when `Tgt` is not a reference.  `replace_type_t<void *, void, int>`
is `int *` and `replace_type_t<int const * [10], int const, long>` is
`long * [10]`. -/
theorem replace_type_patterns (S Tgt : CType) (N : Nat) :
    ((∀ r a, S ≠ ptr false (fn r a)) → replace_type S S Tgt = .ok Tgt) ∧
    ((∀ r a, S ≠ fn r a) → (∀ u, Tgt ≠ lref u) →
      replace_type (ptr false S) S Tgt = .ok (ptr false Tgt)) ∧
    ((∀ u, Tgt ≠ lref u) →
      replace_type (arr (ptr false S) N) S Tgt = .ok (arr (ptr false Tgt) N)) ∧
    replace_type (ptr false (base false void)) (base false void) (base false int)
      = .ok (ptr false (base false int)) ∧
    replace_type (arr (ptr false (base true int)) 10) (base true int) (base false long)
      = .ok (arr (ptr false (base false long)) 10) := by
  refine ⟨fun h => ?_, fun h hg => ?_, fun hg => ?_, by decide, by decide⟩
  · exact replace_type_of_exact S S Tgt (select_exact S Tgt h)
  · rw [replace_type_of_pointer _ S Tgt (select_pointer S Tgt h), mk_ptr_of_not_ref Tgt hg]
  · rw [replace_type_of_array _ N S Tgt (select_array S Tgt N), mk_ptr_of_not_ref Tgt hg]
    rfl

/-- The three patterns at `S = char`, `Tgt = long`, `N = 4`. -/
theorem replace_type_patterns_witness :
    replace_type (base false char) (base false char) (base false long)
      = .ok (base false long) ∧
    replace_type (ptr false (base false char)) (base false char) (base false long)
      = .ok (ptr false (base false long)) ∧
    replace_type (arr (ptr false (base false char)) 4) (base false char) (base false long)
      = .ok (arr (ptr false (base false long)) 4) :=
  ⟨(replace_type_patterns (base false char) (base false long) 4).1 (by simp),
   (replace_type_patterns (base false char) (base false long) 4).2.1 (by simp) (by simp),
   (replace_type_patterns (base false char) (base false long) 4).2.2.1 (by simp)⟩

/-- C8 as stated fails: for `T = char & (*) (char &)` and `S = T` the return type
and the parameter are left alone by `replace_type`, so the claim gives `T`, but
`replace_type<T, T, long &>` is ambiguous; so is `replace_type<T, S, long &>`
for the function type `S = char & (char &)`; and for
`T = void (*) (void (*) ())`, `S = void (*) ()` the nested instantiation
`replace_type<void (*) (), S, int>` for the parameter is ambiguous. -/
theorem replace_type_function_pointer_counterexample :
    replace_type (lref (base false char))
        (ptr false (fn (lref (base false char)) [lref (base false char)]))
        (lref (base false long)) = .ok (lref (base false char)) ∧
    replace_type (ptr false (fn (lref (base false char)) [lref (base false char)]))
        (ptr false (fn (lref (base false char)) [lref (base false char)]))
        (lref (base false long)) = .error .ambiguous ∧
    replace_type (ptr false (fn (lref (base false char)) [lref (base false char)]))
        (fn (lref (base false char)) [lref (base false char)])
        (lref (base false long)) = .error .ambiguous ∧
    replace_type (ptr false (fn (base false void) [ptr false (fn (base false void) [])]))
        (ptr false (fn (base false void) [])) (base false int) = .error .ambiguous := by
  decide

/-- C8 (amended): for every function-pointer type `T = R (*) (A_1, ..., A_n)`,
`n ≥ 0`, and all `S`, `Tgt` with `S` neither `T` nor the function type
`R (A_1, ..., A_n)`, `replace_type_t<T, S, Tgt>` is a type exactly when
`replace_type_t<R, S, Tgt>` and every `replace_type_t<A_k, S, Tgt>` are types,
the former is neither an array nor a function type and none of the latter is
`void`; it is then the function-pointer type of the same arity whose return
type is `replace_type_t<R, S, Tgt>` and whose `k`-th parameter type is
`replace_type_t<A_k, S, Tgt>`, adjusted as a parameter type is (array and
function to pointer, top-level `const` deleted).  The three function-pointer
tests of the source hold. -/
theorem replace_type_function_pointer (R : CType) (A : List CType) (S Tgt : CType)
    (h1 : ptr false (fn R A) ≠ S) (h2 : fn R A ≠ S) :
    (∀ X, replace_type (ptr false (fn R A)) S Tgt = .ok X ↔
      ∃ (ret_t : CType) (params : List CType),
        replace_type R S Tgt = .ok ret_t ∧ params.length = A.length ∧
        (∀ (k : Nat) (a : CType), A[k]? = some a →
          ∃ p, params[k]? = some p ∧ replace_type a S Tgt = .ok p) ∧
        returnable ret_t = true ∧ (∀ p ∈ params, is_void p = false) ∧
        X = ptr false (fn ret_t (params.map adjust_param))) ∧
    replace_type (ptr false (fn (lref (base false char)) [lref (base false char)]))
        (lref (base false char)) (lref (base false long))
      = .ok (ptr false (fn (lref (base false long)) [lref (base false long)])) ∧
    replace_type
        (ptr false (fn (lref (base false char)) [lref (base false char), lref (base false char)]))
        (lref (base false char)) (lref (base false long))
      = .ok (ptr false
          (fn (lref (base false long)) [lref (base false long), lref (base false long)])) ∧
    replace_type
        (ptr false
          (fn (lref (base false float)) [lref (base false double), lref (base false float)]))
        (lref (base false float)) (base false long)
      = .ok (ptr false (fn (base false long) [lref (base false double), base false long])) := by
  refine ⟨fun X => replace_type_fnptr_eq_ok R A S Tgt X h1 h2, by decide, by decide, by decide⟩

/-- The mixed test of the source, `float & (*) (double &, float &)` with
`float &` replaced by `long`, obtained from its return type and parameters. -/
theorem replace_type_function_pointer_witness :
    replace_type
        (ptr false
          (fn (lref (base false float)) [lref (base false double), lref (base false float)]))
        (lref (base false float)) (base false long)
      = .ok (ptr false (fn (base false long) [lref (base false double), base false long])) := by
  refine ((replace_type_function_pointer (lref (base false float))
      [lref (base false double), lref (base false float)] (lref (base false float))
      (base false long) (by decide) (by decide)).1 _).mpr
    ⟨base false long, [lref (base false double), base false long], by decide, rfl, ?_,
      rfl, by decide, rfl⟩
  intro k a hk
  match k, hk with
  | 0, hk => exact ⟨_, rfl, by cases hk; decide⟩
  | 1, hk => exact ⟨_, rfl, by cases hk; decide⟩
  | k + 2, hk => cases hk

/-- C9: for all types `T`, `S`, `Tgt` such that `T` is not `S`, not `S *`, not
`S * [N]` for any `N` and not a function-pointer type, `replace_type_t<T, S, Tgt>`
is `T` unchanged; in particular `replace_type_t<S * *, S, Tgt>` is `S * *` and
`replace_type_t<S [N], S, Tgt>` is `S [N]`. -/
theorem replace_type_default (T S Tgt : CType) (h1 : T ≠ S) (h2 : T ≠ ptr false S)
    (h3 : ∀ N, T ≠ arr (ptr false S) N) (h4 : ∀ R A, T ≠ ptr false (fn R A)) :
    replace_type T S Tgt = .ok T ∧
    replace_type (ptr false (ptr false S)) S Tgt = .ok (ptr false (ptr false S)) ∧
    ∀ N, replace_type (arr S N) S Tgt = .ok (arr S N) := by
  refine ⟨replace_type_of_primary T S Tgt (select_primary T S Tgt h1 h2 h3 h4), ?_, fun N => ?_⟩
  · apply replace_type_of_primary
    apply select_primary
    · intro h
      have := congrArg sizeOf h
      simp at this
      omega
    · intro h
      injection h with _ h
      exact CType.ne_ptr_self false S h.symm
    · intro N h
      cases h
    · intro R A h
      cases h
  · apply replace_type_of_primary
    apply select_primary
    · exact Ne.symm (CType.ne_arr_self S N)
    · intro h
      cases h
    · intro M h
      injection h with h _
      exact CType.ne_ptr_self false S h
    · intro R A h
      cases h

/-- The type `int &` with `S = char`: no pattern matches and it is kept. -/
theorem replace_type_default_witness :
    replace_type (lref (base false int)) (base false char) (base false long)
      = .ok (lref (base false int)) :=
  (replace_type_default (lref (base false int)) (base false char) (base false long)
    (by decide) (by decide) (fun N => by simp) (fun R A => by simp)).1

/-- C10 as stated fails: for `T = S = int (*) (int)`, and for `T = int (*) (int)`
with `S = int (int)`, two partial specializations match and neither is more
specialized than the other, so the selection is ambiguous. -/
theorem select_unique_counterexample :
    select (ptr false (fn (base false int) [base false int]))
        (ptr false (fn (base false int) [base false int])) (base false long)
      = .error .ambiguous ∧
    select (ptr false (fn (base false int) [base false int]))
        (fn (base false int) [base false int]) (base false long)
      = .error .ambiguous ∧
    matching (ptr false (fn (base false int) [base false int]))
        (ptr false (fn (base false int) [base false int])) (base false long)
      = [(.exact, spec_exact), (.fnptr, spec_fnptr)] ∧
    matching (ptr false (fn (base false int) [base false int]))
        (fn (base false int) [base false int]) (base false long)
      = [(.pointer, spec_pointer), (.fnptr, spec_fnptr)] ∧
    spec_exact.more_specialized spec_fnptr = false ∧
    spec_fnptr.more_specialized spec_exact = false ∧
    spec_pointer.more_specialized spec_fnptr = false ∧
    spec_fnptr.more_specialized spec_pointer = false := by
  decide

/-- C10 (amended): no partial specialization of `replace_type` is more
specialized than another, and the selection for `replace_type<T, S, Tgt>` is
ambiguous exactly when `T` is a function-pointer type `R (*) (A...)` and `S` is
`T` itself or the function type `R (A...)`.  Otherwise a supported shape has
one matching partial specialization, which is selected: the exact one for
`T = S`, the pointer one for `T = S *`, the array one for `T = S * [N]`, the
function-pointer one for `T = R (*) (A...)`; and when `T` is not a
function-pointer type, instantiating `replace_type<T, S, Tgt>` never fails with
an ambiguity. -/
theorem select_unique (T S Tgt : CType) :
    (∀ p ∈ specializations, ∀ q ∈ specializations, p.2.more_specialized q.2 = false) ∧
    (select T S Tgt = .error .ambiguous ↔
      (∃ R A, T = ptr false (fn R A)) ∧ (T = S ∨ T = ptr false S)) ∧
    (T = S → (∀ R A, T ≠ ptr false (fn R A)) → select T S Tgt = .ok .exact) ∧
    (T = ptr false S → (∀ R A, S ≠ fn R A) → select T S Tgt = .ok .pointer) ∧
    (∀ N, T = arr (ptr false S) N → select T S Tgt = .ok .array) ∧
    (∀ R A, T = ptr false (fn R A) → T ≠ S → T ≠ ptr false S →
      select T S Tgt = .ok .fnptr) ∧
    ((∀ R A, T ≠ ptr false (fn R A)) → replace_type T S Tgt ≠ .error .ambiguous) := by
  refine ⟨no_more_specialized, select_ambiguous_iff T S Tgt, ?_, ?_, ?_, ?_,
    replace_type_not_ambiguous_of_not_fnptr T S Tgt⟩
  · intro h h4
    subst h
    exact select_exact T Tgt h4
  · intro h h4
    subst h
    exact select_pointer S Tgt h4
  · intro N h
    subst h
    exact select_array S Tgt N
  · intro R A h h1 h2
    subst h
    exact select_fnptr R A S Tgt h1 (fun e => h2 (by rw [e]))

/-- The selections behind the tests of the source: `void *` with `S = void`
selects the pointer specialization, `char & (*) (char &)` with `S = char &` the
function-pointer one. -/
theorem select_unique_witness :
    select (ptr false (base false void)) (base false void) (base false int) = .ok .pointer ∧
    select (ptr false (fn (lref (base false char)) [lref (base false char)]))
        (lref (base false char)) (lref (base false long)) = .ok .fnptr :=
  ⟨(select_unique (ptr false (base false void)) (base false void) (base false int)).2.2.2.1
      rfl (fun R A => by simp),
   (select_unique (ptr false (fn (lref (base false char)) [lref (base false char)]))
      (lref (base false char)) (lref (base false long))).2.2.2.2.2.1 _ _ rfl
      (by decide) (by decide)⟩


/-! ## The claims on the pointer metafunctions -/

/-- C11: for every type `T`, `add_pointer_fwd<T>::type` and `add_pointer_fwd_t<T>`
denote the same type as `add_pointer<T>::type`, namely `T *` when `T *` is
well-formed (`T` is not a reference); `add_pointer` applied twice to `int`
gives `int * *`. -/
theorem add_pointer_fwd_eq_add_pointer (T : CType) :
    add_pointer_fwd T = add_pointer T ∧ add_pointer_fwd_t T = add_pointer T ∧
    ((∀ u, T ≠ lref u) →
      add_pointer T = .ok (ptr false T) ∧ add_pointer_fwd T = .ok (ptr false T) ∧
      add_pointer_fwd_t T = .ok (ptr false T)) ∧
    (add_pointer (base false int)).bind add_pointer
      = .ok (ptr false (ptr false (base false int))) := by
  have h : add_pointer_fwd T = add_pointer T := by
    cases T <;> rfl
  refine ⟨h, h, fun hT => ?_, by decide⟩
  have hp : add_pointer T = .ok (ptr false T) := mk_ptr_of_not_ref T hT
  exact ⟨hp, h.trans hp, h.trans hp⟩

/-- The three metafunctions at `T = double`, as in the test of the source. -/
theorem add_pointer_fwd_eq_add_pointer_witness :
    add_pointer (base false double) = .ok (ptr false (base false double)) ∧
    add_pointer_fwd (base false double) = .ok (ptr false (base false double)) ∧
    add_pointer_fwd_t (base false double) = .ok (ptr false (base false double)) :=
  (add_pointer_fwd_eq_add_pointer (base false double)).2.2.1 (fun u => by simp)

theorem add_const_not_ref (T : CType) (h : is_object_type T = true) (u : CType) :
    add_const T ≠ lref u := by
  cases T <;> simp [add_const, is_object_type] at h ⊢

/-- C12: for every object type `T`, `add_const_pointer_t<T>` is `T const *` and
`add_pointer_fwd_t<add_const_pointer_t<T>>` is `T const * *`, which is not the
type `T const * * *`; for `T = int` it is `int const * *`. -/
theorem add_const_pointer_spec (T : CType) (h : is_object_type T = true) :
    add_const_pointer_t T = .ok (ptr false (add_const T)) ∧
    (add_const_pointer_t T).bind add_pointer_fwd_t
      = .ok (ptr false (ptr false (add_const T))) ∧
    ptr false (ptr false (add_const T)) ≠ ptr false (ptr false (ptr false (add_const T))) ∧
    (add_const_pointer_t (base false int)).bind add_pointer_fwd_t
      = .ok (ptr false (ptr false (base true int))) := by
  have h1 : add_const_pointer_t T = .ok (ptr false (add_const T)) := by
    show (mk_ptr (add_const T)).map type_is = _
    rw [mk_ptr_of_not_ref _ (add_const_not_ref T h)]
    rfl
  refine ⟨h1, ?_, ?_, by decide⟩
  · rw [h1]
    rfl
  · intro e
    injection e with _ e
    exact CType.ne_ptr_self false _ e

/-- The array type `long [4]` is an object type: `long const (*) [4]` and
`long const (* *) [4]`. -/
theorem add_const_pointer_spec_witness :
    add_const_pointer_t (arr (base false long) 4)
      = .ok (ptr false (arr (base true long) 4)) ∧
    (add_const_pointer_t (arr (base false long) 4)).bind add_pointer_fwd_t
      = .ok (ptr false (ptr false (arr (base true long) 4))) :=
  ⟨(add_const_pointer_spec (arr (base false long) 4) rfl).1,
   (add_const_pointer_spec (arr (base false long) 4) rfl).2.1⟩

/-! ## The claims on the traversal of a tuple -/

theorem my_foreach_impl_shift {F : Type} (call : F → Val → Option F) (suf : List Val) :
    ∀ (pre : List Val) (f : F),
      my_foreach_impl call f (pre ++ suf) ((List.range suf.length).map (fun i => i + pre.length))
        = suf.foldlM call f := by
  induction suf with
  | nil =>
    intro pre f
    rfl
  | cons x xs ih =>
    intro pre f
    rw [List.length_cons, List.range_succ_eq_map, List.map_cons, my_foreach_impl]
    have hget : (pre ++ x :: xs)[0 + pre.length]? = some x := by
      rw [Nat.zero_add, List.getElem?_append_right (Nat.le_refl _)]
      simp
    rw [hget, List.foldlM_cons, List.map_map]
    have hfun : ((fun i => i + pre.length) ∘ Nat.succ) = (fun i => i + (pre.length + 1)) := by
      funext i
      simp only [Function.comp]
      omega
    rw [hfun]
    dsimp only
    cases call f x with
    | none => rfl
    | some f' =>
      have ih' := ih (pre ++ [x]) f'
      rw [List.append_assoc, List.singleton_append, List.length_append, List.length_singleton]
        at ih'
      exact ih'

theorem my_foreach_eq_foldlM {F : Type} (call : F → Val → Option F) (f : F) (t : List Val) :
    my_foreach call f t = t.foldlM call f := by
  have h := my_foreach_impl_shift call t [] f
  simpa [my_foreach] using h

theorem foldlM_some_eq_foldl {F : Type} (g : F → Val → F) (t : List Val) :
    ∀ f : F, t.foldlM (fun s x => some (g s x)) f = some (t.foldl g f) := by
  induction t with
  | nil => intro f; rfl
  | cons x xs ih =>
    intro f
    rw [List.foldlM_cons, List.foldl_cons]
    exact ih (g f x)

/-- C13: for every tuple `t` and every function object `f`, `my_foreach(f, t)`
returns the left fold of the call of `f` over the elements of `t`, from the
first to the last, starting from `f`: `f` is called once on each element in
increasing index order (the arguments of the calls, in their order, are the
elements of `t`), and for the empty tuple `f` is returned unchanged. -/
theorem my_foreach_left_fold {F : Type} (call : F → Val → Option F) (f : F) (t : List Val) :
    my_foreach call f t = t.foldlM call f ∧
    (∀ g : F → Val → F, my_foreach (fun s x => some (g s x)) f t = some (t.foldl g f)) ∧
    my_foreach (fun (args : List Val) x => some (args ++ [x])) [] t = some t ∧
    my_foreach call f [] = some f := by
  refine ⟨my_foreach_eq_foldlM call f t, fun g => ?_, ?_, rfl⟩
  · rw [my_foreach_eq_foldlM, foldlM_some_eq_foldl]
  · rw [my_foreach_eq_foldlM, foldlM_some_eq_foldl]
    have : ∀ (l acc : List Val), List.foldl (fun args x => args ++ [x]) acc l = acc ++ l := by
      intro l
      induction l with
      | nil => intro acc; simp
      | cons y ys ih => intro acc; rw [List.foldl_cons, ih]; simp
    rw [this]
    rfl

theorem sum_count_cons (x : Val) (l : List Val) :
    sum_of_ints (x :: l) + 10 * (count_of_doubles (x :: l) : Int)
      = added_by_call x + (sum_of_ints l + 10 * (count_of_doubles l : Int)) := by
  cases x <;>
    simp [sum_of_ints, count_of_doubles, added_by_call, List.filterMap_cons, List.countP_cons,
      Val.type] <;> ring

theorem my_func_call_eq (f : my_func) (x : Val)
    (h : INT_MIN ≤ f.val_ + added_by_call x ∧ f.val_ + added_by_call x ≤ INT_MAX) :
    my_func.call f x = some ⟨f.val_ + added_by_call x⟩ := by
  cases x with
  | int_ i =>
    have h' : INT_MIN ≤ f.val_ + i ∧ f.val_ + i ≤ INT_MAX := h
    show (int_add f.val_ i).map my_func.mk = _
    rw [int_add, if_pos h']
    rfl
  | double_ d =>
    have h' : INT_MIN ≤ f.val_ + 10 ∧ f.val_ + 10 ≤ INT_MAX := h
    show (int_add f.val_ 10).map my_func.mk = _
    rw [int_add, if_pos h']
    rfl
  | _ =>
    show some f = _
    simp [added_by_call]

theorem my_func_call_other (f : my_func) (x : Val) (h1 : x.type ≠ ArgType.int)
    (h2 : x.type ≠ ArgType.double) :
    resolve my_func_overloads [x.type] = some my_func_op.T ∧ my_func.call f x = some f := by
  cases x with
  | int_ i => exact absurd rfl h1
  | double_ d => exact absurd rfl h2
  | _ => exact ⟨rfl, rfl⟩

theorem foldlM_my_func (t : List Val) :
    ∀ s : my_func,
      (∀ k ≤ t.length,
        INT_MIN ≤ s.val_ + (sum_of_ints (t.take k) + 10 * (count_of_doubles (t.take k) : Int)) ∧
        s.val_ + (sum_of_ints (t.take k) + 10 * (count_of_doubles (t.take k) : Int)) ≤ INT_MAX) →
      t.foldlM my_func.call s
        = some ⟨s.val_ + (sum_of_ints t + 10 * (count_of_doubles t : Int))⟩ := by
  induction t with
  | nil =>
    intro s _
    simp [sum_of_ints, count_of_doubles]
  | cons x xs ih =>
    intro s h
    have h1 := h 1 (by simp)
    rw [List.take_succ_cons, List.take_zero, sum_count_cons] at h1
    have h1' : INT_MIN ≤ s.val_ + added_by_call x ∧ s.val_ + added_by_call x ≤ INT_MAX := by
      simp [sum_of_ints, count_of_doubles] at h1
      exact h1
    rw [List.foldlM_cons, my_func_call_eq s x h1']
    show List.foldlM my_func.call ⟨s.val_ + added_by_call x⟩ xs = _
    rw [ih ⟨s.val_ + added_by_call x⟩, sum_count_cons]
    · congr 2
      ring
    · intro k hk
      have hk' := h (k + 1) (by simpa using hk)
      rw [List.take_succ_cons, sum_count_cons] at hk'
      constructor
      · have := hk'.1
        show INT_MIN ≤ s.val_ + added_by_call x + _
        linarith
      · have := hk'.2
        show s.val_ + added_by_call x + _ ≤ INT_MAX
        linarith

/-- C14: for every tuple `t` on which no `int` addition overflows (every
partial result is an `int`), `my_foreach(my_func{}, t).val_` is the sum of the
elements of `t` of type `int` plus 10 times the number of elements of type
`double`; an element of any other type selects the catch-all template and
leaves the function object as it is.  For `t = (10, "abc", 100.0)` the result
is 20. -/
theorem my_foreach_my_func (t : List Val)
    (h : ∀ k ≤ t.length,
      INT_MIN ≤ sum_of_ints (t.take k) + 10 * (count_of_doubles (t.take k) : Int) ∧
      sum_of_ints (t.take k) + 10 * (count_of_doubles (t.take k) : Int) ≤ INT_MAX) :
    (my_foreach my_func.call ⟨0⟩ t).map my_func.val_
      = some (sum_of_ints t + 10 * (count_of_doubles t : Int)) ∧
    (∀ (f : my_func) (x : Val), x.type ≠ ArgType.int → x.type ≠ ArgType.double →
      resolve my_func_overloads [x.type] = some my_func_op.T ∧ my_func.call f x = some f) ∧
    (∀ s d : Nat,
      (my_foreach my_func.call ⟨0⟩ [Val.int_ 10, Val.char_const_ptr s, Val.double_ d]).map
        my_func.val_ = some 20) := by
  refine ⟨?_, my_func_call_other, fun s d => rfl⟩
  rw [my_foreach_eq_foldlM, foldlM_my_func t ⟨0⟩]
  · simp
  · intro k hk
    simpa using h k hk

/-- A tuple with elements of six types: `(7, 2L, 1.5, 'c', -3, 2.5f)` gives
`7 - 3 + 10 * 1 = 14`. -/
theorem my_foreach_my_func_witness :
    (my_foreach my_func.call ⟨0⟩
      [Val.int_ 7, Val.long_ 2, Val.double_ 1, Val.char_ 99, Val.int_ (-3), Val.float_ 2]).map
        my_func.val_
      = some (sum_of_ints
          [Val.int_ 7, Val.long_ 2, Val.double_ 1, Val.char_ 99, Val.int_ (-3), Val.float_ 2]
        + 10 * (count_of_doubles
          [Val.int_ 7, Val.long_ 2, Val.double_ 1, Val.char_ 99, Val.int_ (-3), Val.float_ 2]
            : Int)) :=
  (my_foreach_my_func
    [Val.int_ 7, Val.long_ 2, Val.double_ 1, Val.char_ 99, Val.int_ (-3), Val.float_ 2]
    (by decide)).1

/-! ## The claims on `std::apply` -/

/-- C15: for every `int` `i` with `i + 20` an `int`, every `char const *` `s`
and every `double` `d`, `std::apply(my_func_for_apply{}, tuple(i, s, d))` and
`std::apply(my_func_for_apply{}, pair(i, s))` return `i + 20`: overload
resolution selects the function with these parameter types, not the variadic
template; both return 30 for `i = 10`. -/
theorem std_apply_tuple_pair (i : Int) (s d : Nat)
    (h : INT_MIN ≤ i + 20 ∧ i + 20 ≤ INT_MAX) :
    std_apply my_func_for_apply [Val.int_ i, Val.char_const_ptr s, Val.double_ d]
      = some (Val.int_ (i + 20)) ∧
    std_apply my_func_for_apply [Val.int_ i, Val.char_const_ptr s] = some (Val.int_ (i + 20)) ∧
    resolve my_func_for_apply_overloads
        [ArgType.int, ArgType.char_const_ptr, ArgType.double]
      = some my_func_for_apply_op.int_ptr_double ∧
    resolve my_func_for_apply_overloads [ArgType.int, ArgType.char_const_ptr]
      = some my_func_for_apply_op.int_ptr ∧
    std_apply my_func_for_apply [Val.int_ 10, Val.char_const_ptr s, Val.double_ d]
      = some (Val.int_ 30) ∧
    std_apply my_func_for_apply [Val.int_ 10, Val.char_const_ptr s] = some (Val.int_ 30) := by
  refine ⟨?_, ?_, rfl, rfl, rfl, rfl⟩
  · show (int_add i 20).map Val.int_ = _
    rw [int_add, if_pos h]
    rfl
  · show (int_add i 20).map Val.int_ = _
    rw [int_add, if_pos h]
    rfl

/-- The tuple and the pair of the tests, with `i = 10`. -/
theorem std_apply_tuple_pair_witness :
    std_apply my_func_for_apply [Val.int_ 10, Val.char_const_ptr 0, Val.double_ 0]
      = some (Val.int_ (10 + 20)) ∧
    std_apply my_func_for_apply [Val.int_ 10, Val.char_const_ptr 0]
      = some (Val.int_ (10 + 20)) :=
  ⟨(std_apply_tuple_pair 10 0 0 (by decide)).1, (std_apply_tuple_pair 10 0 0 (by decide)).2.1⟩

theorem resolve_all_size_t (args : List ArgType) (h : ∀ a ∈ args, a = ArgType.size_t) :
    resolve my_func_for_apply_overloads args = some my_func_for_apply_op.pack := by
  match args, h with
  | [], _ => rfl
  | [a], h =>
    rw [h a (by simp)]
    rfl
  | [a, b], h =>
    rw [h a (by simp), h b (by simp)]
    rfl
  | [a, b, c], h =>
    rw [h a (by simp), h b (by simp), h c (by simp)]
    rfl
  | a :: b :: c :: e :: rest, _ =>
    simp [resolve, my_func_for_apply_overloads, Overload.ranks, ranks_fixed, List.filter,
      Overload.better, Overload.is_template]

theorem fold_right_plus_size_t (a : List Nat) (hne : a ≠ []) (hlt : ∀ x ∈ a, x < SIZE_MOD) :
    fold_right_plus (a.map Val.size_t_) = some (Val.size_t_ (a.sum % SIZE_MOD)) := by
  match a, hne, hlt with
  | [x], _, hlt =>
    simp [fold_right_plus, Nat.mod_eq_of_lt (hlt x (by simp))]
  | x :: y :: rest, _, hlt =>
    have ih := fold_right_plus_size_t (y :: rest) (by simp)
      (fun z hz => hlt z (List.mem_cons_of_mem _ hz))
    rw [List.map_cons, List.map_cons, fold_right_plus, ← List.map_cons, ih]
    simp [plus, List.sum_cons]

theorem my_func_for_apply_of_pack (args : List Val)
    (h : resolve my_func_for_apply_overloads (args.map Val.type)
      = some my_func_for_apply_op.pack) :
    my_func_for_apply args = fold_right_plus args := by
  unfold my_func_for_apply
  rw [h]

/-- C16: for every `N ≥ 1` and every `std::array<std::size_t, N>` `a`,
`std::apply(my_func_for_apply{}, a)` selects the variadic template and returns
the right fold `a_0 + (a_1 + (... + a_{N-1}))`, the sum of the `N` elements
modulo `2 ^ 64`; it is 15 for `{1, 2, 3, 4, 5}`. -/
theorem std_apply_array (a : List Nat) (hne : a ≠ []) (hlt : ∀ x ∈ a, x < 2 ^ 64) :
    resolve my_func_for_apply_overloads ((a.map Val.size_t_).map Val.type)
      = some my_func_for_apply_op.pack ∧
    std_apply my_func_for_apply (a.map Val.size_t_) = fold_right_plus (a.map Val.size_t_) ∧
    std_apply my_func_for_apply (a.map Val.size_t_) = some (Val.size_t_ (a.sum % 2 ^ 64)) ∧
    std_apply my_func_for_apply
        [Val.size_t_ 1, Val.size_t_ 2, Val.size_t_ 3, Val.size_t_ 4, Val.size_t_ 5]
      = some (Val.size_t_ 15) := by
  have hres : resolve my_func_for_apply_overloads ((a.map Val.size_t_).map Val.type)
      = some my_func_for_apply_op.pack := by
    apply resolve_all_size_t
    intro t ht
    simp only [List.map_map, List.mem_map, Function.comp] at ht
    obtain ⟨x, _, rfl⟩ := ht
    rfl
  have hcall := my_func_for_apply_of_pack (a.map Val.size_t_) hres
  refine ⟨hres, hcall, ?_, by decide⟩
  show my_func_for_apply (a.map Val.size_t_) = _
  rw [hcall]
  exact fold_right_plus_size_t a hne hlt

/-- An array whose sum wraps: `{2 ^ 64 - 1, 2, 5}` gives 6. -/
theorem std_apply_array_witness :
    std_apply my_func_for_apply
        ([18446744073709551615, 2, 5].map Val.size_t_)
      = some (Val.size_t_ ([18446744073709551615, 2, 5].sum % 2 ^ 64)) :=
  (std_apply_array [18446744073709551615, 2, 5] (by decide) (by decide)).2.2.1

/-! ## The claims on `reverse_tuple` -/

theorem size_t_sub_eq (a b : Nat) (ha : a < SIZE_MOD) (hb : b ≤ a) :
    size_t_sub a b = a - b := by
  unfold size_t_sub
  have h : a + SIZE_MOD - b = (a - b) + SIZE_MOD := by omega
  rw [h, Nat.add_mod_right, Nat.mod_eq_of_lt (by omega)]

theorem reverse_tuple_index (n i : Nat) (hn : n < SIZE_MOD) (hi : i < n) :
    size_t_sub (size_t_sub n i) 1 = n - 1 - i := by
  rw [size_t_sub_eq n i hn (by omega), size_t_sub_eq (n - i) 1 (by omega) (by omega)]
  omega

theorem reverse_tuple_impl_take (params : List CType) (hn : params.length < SIZE_MOD) :
    ∀ k, k ≤ params.length →
      reverse_tuple_impl params params.length
          ((List.range k).map (fun i => i + (params.length - k)))
        = some (params.take k).reverse := by
  intro k
  induction k with
  | zero =>
    intro _
    rfl
  | succ k ih =>
    intro hk
    have hk' : k < params.length := hk
    rw [List.range_succ_eq_map, List.map_cons, List.map_map, reverse_tuple_impl,
      reverse_tuple_index _ _ hn (by omega)]
    have hidx : params.length - 1 - (0 + (params.length - (k + 1))) = k := by omega
    have hfun : ((fun i => i + (params.length - (k + 1))) ∘ Nat.succ)
        = (fun i => i + (params.length - k)) := by
      funext i
      simp only [Function.comp]
      omega
    rw [hidx, hfun, ih (by omega), tuple_element, List.getElem?_eq_getElem hk']
    have htake : params.take (k + 1) = params.take k ++ [params[k]] := by
      rw [List.take_succ, List.getElem?_eq_getElem hk']
      rfl
    rw [htake, List.reverse_append]
    rfl

theorem reverse_tuple_eq_reverse (params : List CType) (hn : params.length < SIZE_MOD) :
    reverse_tuple params = some params.reverse := by
  have h := reverse_tuple_impl_take params hn params.length (Nat.le_refl _)
  simpa [reverse_tuple] using h

/-- C17: for every tuple type `std::tuple<P_0, ..., P_{N-1}>`, `N ≥ 0`,
`reverse_tuple<...>::type` is well-formed: every index `N - i - 1` computed in
`std::size_t` is the number `N - 1 - i` and is below `N`; the result has arity
`N` and its element type at position `i` is `P_{N-1-i}`; the reversal of an
empty or single-element tuple type is that type, and the reversal of
`std::tuple<int, std::string, double>` is `std::tuple<double, std::string, int>`
(`std::string` is the class type 0). -/
theorem reverse_tuple_spec (params : List CType) (hn : params.length < 2 ^ 64) :
    (∃ r, reverse_tuple params = some r ∧ r.length = params.length ∧
      ∀ i, i < params.length → r[i]? = params[params.length - 1 - i]?) ∧
    (∀ i, i < params.length →
      size_t_sub (size_t_sub params.length i) 1 = params.length - 1 - i ∧
      params.length - 1 - i < params.length) ∧
    (params.length ≤ 1 → reverse_tuple params = some params) ∧
    reverse_tuple [base false int, base false (cls 0), base false double]
      = some [base false double, base false (cls 0), base false int] := by
  have hrev := reverse_tuple_eq_reverse params hn
  refine ⟨⟨params.reverse, hrev, List.length_reverse params, fun i hi => ?_⟩,
    fun i hi => ⟨reverse_tuple_index _ _ hn hi, by omega⟩, fun h1 => ?_, by decide⟩
  · exact List.getElem?_reverse hi
  · rw [hrev]
    match params, h1 with
    | [], _ => rfl
    | [x], _ => rfl
    | x :: y :: rest, h1 => simp at h1

/-- The tuple type `std::tuple<char, long *, int &, double>` reversed. -/
theorem reverse_tuple_spec_witness :
    ∃ r, reverse_tuple
        [base false char, ptr false (base false long), lref (base false int),
          base false double] = some r ∧
      r.length = 4 ∧
      ∀ i, i < 4 → r[i]? =
        [base false char, ptr false (base false long), lref (base false int),
          base false double][4 - 1 - i]? :=
  (reverse_tuple_spec
    [base false char, ptr false (base false long), lref (base false int), base false double]
    (by decide)).1

/-- C18: `reverse_tuple` is an involution: for every tuple type
`T = std::tuple<P_0, ..., P_{N-1}>`, `reverse_tuple<reverse_tuple<T>::type>::type`
is `T`. -/
theorem reverse_tuple_involution (params : List CType) (hn : params.length < 2 ^ 64) :
    (reverse_tuple params).bind reverse_tuple = some params := by
  rw [reverse_tuple_eq_reverse params hn, Option.some_bind,
    reverse_tuple_eq_reverse params.reverse (by rw [List.length_reverse]; exact hn),
    List.reverse_reverse]

/-- The tuple type `std::tuple<int, std::string, double>` reversed twice. -/
theorem reverse_tuple_involution_witness :
    (reverse_tuple [base false int, base false (cls 0), base false double]).bind reverse_tuple
      = some [base false int, base false (cls 0), base false double] :=
  reverse_tuple_involution [base false int, base false (cls 0), base false double] (by decide)

/-! ## The claim on `binary` as the inverse of an encoding -/

theorem nine_mul_ofDigits_ten_lt (L : List Nat) (h : ∀ d ∈ L, d ≤ 1) :
    9 * Nat.ofDigits 10 L < 10 ^ L.length := by
  induction L with
  | nil => simp
  | cons d L ih =>
    have hd : d ≤ 1 := h d (List.mem_cons_self _ _)
    have ih' := ih (fun x hx => h x (List.mem_cons_of_mem _ hx))
    rw [Nat.ofDigits_cons, List.length_cons, Nat.pow_succ]
    omega

theorem digits_two_le_one (k d : Nat) (h : d ∈ Nat.digits 2 k) : d ≤ 1 := by
  have := Nat.digits_lt_base (by decide : 1 < 2) h
  omega

theorem digits_getLast_ne_zero (b k : Nat) (h : Nat.digits b k ≠ []) :
    (Nat.digits b k).getLast h ≠ 0 :=
  Nat.getLast_digit_ne_zero b (Nat.digits_ne_nil_iff_ne_zero.mp h)

theorem digits_ten_binary_digits_as_decimal (k : Nat) :
    Nat.digits 10 (binary_digits_as_decimal k) = Nat.digits 2 k := by
  unfold binary_digits_as_decimal
  apply Nat.digits_ofDigits 10 (by decide)
  · intro d hd
    have := digits_two_le_one k d hd
    omega
  · intro h
    exact digits_getLast_ne_zero 2 k h

theorem binary_digits_as_decimal_lt (k : Nat) (hk : k < 2 ^ 20) :
    binary_digits_as_decimal k < SIZE_MOD := by
  have hlen : (Nat.digits 2 k).length ≤ 20 := by
    by_contra hc
    have hk0 : k ≠ 0 := by
      intro h0
      rw [h0] at hc
      simp at hc
    have h1 := Nat.base_pow_length_digits_le 2 k (by decide) hk0
    have h2 : 2 ^ 21 ≤ 2 ^ (Nat.digits 2 k).length :=
      Nat.pow_le_pow_right (by decide) (by omega)
    omega
  have h9 := nine_mul_ofDigits_ten_lt (Nat.digits 2 k) (digits_two_le_one k)
  have hpow : 10 ^ (Nat.digits 2 k).length ≤ 10 ^ 20 :=
    Nat.pow_le_pow_right (by decide) hlen
  unfold binary_digits_as_decimal SIZE_MOD
  omega

theorem binary_digits_as_decimal_ge (k : Nat) (hk : 2 ^ 20 ≤ k) :
    SIZE_MOD ≤ binary_digits_as_decimal k := by
  have hlt : k < 2 ^ (Nat.digits 2 k).length := Nat.lt_base_pow_length_digits (by decide)
  have hlen : 21 ≤ (Nat.digits 2 k).length := by
    by_contra hc
    have h2 : 2 ^ (Nat.digits 2 k).length ≤ 2 ^ 20 :=
      Nat.pow_le_pow_right (by decide) (by omega)
    omega
  have hne : Nat.digits 2 k ≠ [] := by
    intro h
    rw [h] at hlen
    simp at hlen
  have h10 := Nat.pow_length_le_mul_ofDigits (b := 8) hne (digits_getLast_ne_zero 2 k hne)
  have hpow : 10 ^ 21 ≤ 10 ^ (Nat.digits 2 k).length :=
    Nat.pow_le_pow_right (by decide) hlen
  unfold binary_digits_as_decimal SIZE_MOD
  have h10' : 10 ^ (Nat.digits 2 k).length ≤ 10 * Nat.ofDigits 10 (Nat.digits 2 k) := h10
  omega

theorem binary_literal_eq_some (n : Nat) (v : CVal) (h : binary_literal n = some v) :
    n < SIZE_MOD ∧ binary n = some v ∧
      v.val = (Nat.ofDigits 2 (Nat.digits 10 n) : Nat) := by
  unfold binary_literal at h
  by_cases hn : n < SIZE_MOD
  · rw [if_pos hn] at h
    have hd : ∀ d ∈ Nat.digits 10 n, d = 0 ∨ d = 1 := by
      intro d hd
      by_contra hbad
      have := (binary_eq_none_iff n).mpr ⟨d, hd, hbad⟩
      rw [this] at h
      cases h
    obtain ⟨v', hv', hval, _⟩ := binary_invariant n hn hd
    rw [h] at hv'
    injection hv' with hv'
    rw [hv']
    exact ⟨hn, h.trans (by rw [hv']), hval⟩
  · rw [if_neg hn] at h
    cases h

theorem binary_literal_injective (n1 n2 : Nat) (v1 v2 : CVal)
    (h1 : binary_literal n1 = some v1) (h2 : binary_literal n2 = some v2)
    (hv : v1.val = v2.val) : n1 = n2 := by
  obtain ⟨_, b1, e1⟩ := binary_literal_eq_some n1 v1 h1
  obtain ⟨_, b2, e2⟩ := binary_literal_eq_some n2 v2 h2
  have hall : ∀ n v, binary n = some v → ∀ d ∈ Nat.digits 10 n, d < 2 := by
    intro n v hb d hd
    by_contra hbad
    have := (binary_eq_none_iff n).mpr ⟨d, hd, by omega⟩
    rw [this] at hb
    cases hb
  have he : Nat.ofDigits 2 (Nat.digits 10 n1) = Nat.ofDigits 2 (Nat.digits 10 n2) := by
    have : ((Nat.ofDigits 2 (Nat.digits 10 n1) : Nat) : Int)
        = ((Nat.ofDigits 2 (Nat.digits 10 n2) : Nat) : Int) := by
      rw [← e1, ← e2, hv]
    exact_mod_cast this
  have d1 := Nat.digits_ofDigits 2 (by decide) (Nat.digits 10 n1) (hall n1 v1 b1)
    (fun h => digits_getLast_ne_zero 10 n1 h)
  have d2 := Nat.digits_ofDigits 2 (by decide) (Nat.digits 10 n2) (hall n2 v2 b2)
    (fun h => digits_getLast_ne_zero 10 n2 h)
  rw [he, d2] at d1
  exact (Nat.digits_inj_iff.mp d1).symm

/-- C19 as stated fails: for `k = 2 ^ 20` the literal with the binary digits of
`k` as decimal digits is `10 ^ 20`, which is not below `2 ^ 64`: it is no value
of the `std::size_t` template parameter of `binary` and is not accepted. -/
theorem binary_inverts_encoding_counterexample :
    binary_digits_as_decimal (2 ^ 20) = 10 ^ 20 ∧ ¬ (10 ^ 20 < 2 ^ 64) ∧
    binary_literal (binary_digits_as_decimal (2 ^ 20)) = none := by
  have h : binary_digits_as_decimal (2 ^ 20) = 10 ^ 20 := by
    unfold binary_digits_as_decimal
    norm_num [Nat.ofDigits]
  refine ⟨h, by decide, ?_⟩
  rw [h]
  unfold binary_literal SIZE_MOD
  rw [if_neg (by decide)]

/-- C19 (amended): the literal `n` with the binary digits of `k` as decimal
digits fits `std::size_t` exactly when `k < 2 ^ 20`; for every such `k` the
literal is accepted and `binary<n>::value = k`, and for every other `k` it is
not accepted.  `binary` is injective on the literals it accepts: two accepted
literals with the same value are the same. -/
theorem binary_inverts_encoding (k : Nat) :
    (k < 2 ^ 20 ↔ binary_digits_as_decimal k < 2 ^ 64) ∧
    (k < 2 ^ 20 →
      ∃ v, binary_literal (binary_digits_as_decimal k) = some v ∧ v.val = (k : Int)) ∧
    (2 ^ 20 ≤ k → binary_literal (binary_digits_as_decimal k) = none) ∧
    (∀ (n1 n2 : Nat) (v1 v2 : CVal), binary_literal n1 = some v1 →
      binary_literal n2 = some v2 → v1.val = v2.val → n1 = n2) := by
  refine ⟨⟨binary_digits_as_decimal_lt k, fun h => ?_⟩, fun hk => ?_, fun hk => ?_,
    binary_literal_injective⟩
  · by_contra hc
    have := binary_digits_as_decimal_ge k (by omega)
    unfold SIZE_MOD at this
    omega
  · have hlt := binary_digits_as_decimal_lt k hk
    have hd : ∀ d ∈ Nat.digits 10 (binary_digits_as_decimal k), d = 0 ∨ d = 1 := by
      intro d hd
      rw [digits_ten_binary_digits_as_decimal] at hd
      have := digits_two_le_one k d hd
      omega
    obtain ⟨v, hv, hval, _⟩ := binary_invariant _ hlt hd
    refine ⟨v, ?_, ?_⟩
    · unfold binary_literal
      rw [if_pos hlt, hv]
    · rw [hval, digits_ten_binary_digits_as_decimal, Nat.ofDigits_digits]
  · have hge := binary_digits_as_decimal_ge k hk
    unfold binary_literal
    rw [if_neg (by omega)]

/-- The number `k = 11` has the binary digits `1011`: `binary<1011>::value = 11`. -/
theorem binary_inverts_encoding_witness :
    ∃ v, binary_literal (binary_digits_as_decimal 11) = some v ∧ v.val = (11 : Int) :=
  (binary_inverts_encoding 11).2.1 (by decide)

/-! ## The claim on replacing a type by itself -/

theorem most_specialized_flagged_others : ∀ e p a f : Bool,
    (most_specialized (flagged e p a f) = .ok .exact → e = true) ∧
    (most_specialized (flagged e p a f) = .ok .pointer → p = true) ∧
    (most_specialized (flagged e p a f) = .ok .array → a = true) := by
  decide

theorem select_exact_only (t s g : CType) (h : select t s g = .ok .exact) : t = s := by
  rw [select_eq_flagged] at h
  have := (most_specialized_flagged_others _ _ _ _).1 h
  rw [spec_exact_matches] at this
  exact of_decide_eq_true this

theorem select_pointer_only (t s g : CType) (h : select t s g = .ok .pointer) :
    t = ptr false s := by
  rw [select_eq_flagged] at h
  have := (most_specialized_flagged_others _ _ _ _).2.1 h
  rw [spec_pointer_matches] at this
  exact of_decide_eq_true this

theorem select_array_only (t s g : CType) (h : select t s g = .ok .array) :
    ∃ n, t = arr (ptr false s) n := by
  rw [select_eq_flagged] at h
  exact (spec_array_matches t s g).mp ((most_specialized_flagged_others _ _ _ _).2.2 h)

theorem mk_ptr_eq_ok (g x : CType) (h : mk_ptr g = .ok x) : x = ptr false g := by
  cases g <;> first
    | (injection h with h; exact h.symm)
    | cases h

theorem params_adjusted_list_mem (a : List CType) (h : CType.params_adjusted_list a = true) :
    ∀ x ∈ a, x.params_adjusted = true ∧ adjust_param x = x := by
  induction a with
  | nil =>
    intro x hx
    cases hx
  | cons y ys ih =>
    rw [CType.params_adjusted_list] at h
    simp only [Bool.and_eq_true, decide_eq_true_eq] at h
    intro x hx
    rcases List.mem_cons.mp hx with rfl | hx
    · exact ⟨h.1.2, h.1.1⟩
    · exact ih h.2 x hx

theorem forall₂_eq_of_imp (R : CType → CType → Prop) (a ps : List CType)
    (h : List.Forall₂ R a ps) (himp : ∀ x ∈ a, ∀ p, R x p → p = x) : ps = a := by
  induction h with
  | nil => rfl
  | cons hxy _ ih =>
    rw [himp _ (List.mem_cons_self _ _) _ hxy,
      ih (fun x hx p hp => himp x (List.mem_cons_of_mem _ hx) p hp)]

theorem replace_type_self_bounded (n : Nat) :
    ∀ (T S X : CType), sizeOf T ≤ n → T.params_adjusted = true →
      replace_type T S S = .ok X → X = T := by
  induction n with
  | zero =>
    intro T S X hs
    cases T <;> simp at hs
  | succ n ih =>
    intro T S X hs hT h
    rw [replace_type_unfold] at h
    cases hc : select T S S with
    | error e =>
      rw [hc] at h
      cases h
    | ok c =>
      rw [hc] at h
      cases c with
      | primary =>
        injection h with h
        exact h.symm
      | exact =>
        injection h with h
        rw [← h]
        exact (select_exact_only T S S hc).symm
      | pointer =>
        have ht := select_pointer_only T S S hc
        have h' : (mk_ptr S).map type_is = .ok X := h
        cases hm : mk_ptr S with
        | error e =>
          rw [hm] at h'
          cases h'
        | ok y =>
          rw [hm] at h'
          injection h' with h'
          rw [← h', ht]
          exact mk_ptr_eq_ok S y hm
      | array =>
        obtain ⟨m, ht⟩ := select_array_only T S S hc
        subst ht
        have h' : (mk_ptr S).map (fun p => arr p m) = .ok X := h
        cases hm : mk_ptr S with
        | error e =>
          rw [hm] at h'
          cases h'
        | ok y =>
          rw [hm] at h'
          injection h' with h'
          rw [← h', mk_ptr_eq_ok S y hm]
      | fnptr =>
        obtain ⟨r, a, ht⟩ := select_fnptr_only T S S hc
        subst ht
        have h' : (replace_type r S S).bind (fun ret_t =>
            (replace_type_pack a S S).bind (fun params => mk_fn_ptr ret_t params)) = .ok X := h
        rw [except_bind_eq_ok] at h'
        obtain ⟨ret_t, hr, h'⟩ := h'
        rw [except_bind_eq_ok] at h'
        obtain ⟨ps, hp, hmk⟩ := h'
        have hsz : sizeOf (ptr false (fn r a)) = 1 + sizeOf false + (1 + sizeOf r + sizeOf a) := by
          simp
        have hTr : r.params_adjusted = true ∧ CType.params_adjusted_list a = true := by
          have : (r.params_adjusted && CType.params_adjusted_list a) = true := hT
          simpa using this
        have hret : ret_t = r := ih r S ret_t (by omega) hTr.1 hr
        have hmem := params_adjusted_list_mem a hTr.2
        have hps : ps = a := by
          apply forall₂_eq_of_imp _ a ps ((replace_type_pack_ok_iff a S S ps).mp hp)
          intro x hx p hxp
          have hlt := List.sizeOf_lt_of_mem hx
          exact ih x S p (by omega) (hmem x hx).1 hxp
        rw [mk_fn_ptr_eq_ok] at hmk
        rw [hmk.2.2, hret, hps]
        have hmap : a.map adjust_param = a := by
          conv_rhs => rw [← List.map_id a]
          apply List.map_congr_left
          intro x hx
          exact (hmem x hx).2
        rw [hmap]

/-- C20: replacing a type by itself is the identity: for all types `T` and `S`
for which `replace_type<T, S, S>` is well-formed (no selection is ambiguous, at
the top level and in the instantiations for the return type and the parameter
types of function pointers), `replace_type_t<T, S, S>` is `T`.  A term `T`
stands for a type when the parameter types of its function types are the
adjusted ones. -/
theorem replace_type_self (T S : CType) (hT : T.params_adjusted = true)
    (h : ∃ X, replace_type T S S = .ok X) : replace_type T S S = .ok T := by
  obtain ⟨X, hX⟩ := h
  rw [hX, replace_type_self_bounded (sizeOf T) T S X (Nat.le_refl _) hT hX]

/-- The type `char & (*) (char *, long (*) (char))` with `S = char`: the
instantiation is well-formed and gives the type back. -/
theorem replace_type_self_witness :
    (∃ X, replace_type
        (ptr false (fn (lref (base false char))
          [ptr false (base false char),
            ptr false (fn (base false long) [base false char])]))
        (base false char) (base false char) = .ok X) ∧
    replace_type
        (ptr false (fn (lref (base false char))
          [ptr false (base false char),
            ptr false (fn (base false long) [base false char])]))
        (base false char) (base false char)
      = .ok (ptr false (fn (lref (base false char))
          [ptr false (base false char),
            ptr false (fn (base false long) [base false char])])) :=
  ⟨⟨ptr false (fn (lref (base false char))
        [ptr false (base false char), ptr false (fn (base false long) [base false char])]),
      by decide⟩,
   replace_type_self
    (ptr false (fn (lref (base false char))
      [ptr false (base false char), ptr false (fn (base false long) [base false char])]))
    (base false char) (by decide)
    ⟨ptr false (fn (lref (base false char))
        [ptr false (base false char), ptr false (fn (base false long) [base false char])]),
      by decide⟩⟩

end Metafunction
